import Mathlib

/-
  Verification development for the sentinel privacy-router control plane.

  The definitions below are a shallow embedding of the two core source
  files:
    - sentinel-service-kvm.py  (KVMServiceManager: registry, lifecycle,
      health monitor)
    - sentinel-parser-kvm.py   (KVMProtocolParser: detection, decoders)

  Host interactions (process launch, signals, psutil queries, wall-clock
  time) are modelled as explicit environment records passed to each
  operation; Python exceptions raised by library calls are modelled as
  Option/Except values, and the try/except structure of the source is
  reproduced on those values.
-/

namespace Sentinel

/-! ## Association-list model of Python dicts (insertion ordered) -/

/-- Python dict assignment `d[k] = v`: replaces in place when the key is
present (keeping its position), otherwise appends. -/
def assocSet {κ α : Type} [DecidableEq κ] (k : κ) (v : α) :
    List (κ × α) → List (κ × α)
  | [] => [(k, v)]
  | (k2, v2) :: rest =>
      if k2 = k then (k, v) :: rest else (k2, v2) :: assocSet k v rest

/-- Python dict lookup `d.get(k)` / `d[k]`. -/
def assocGet {κ α : Type} [DecidableEq κ] (k : κ) :
    List (κ × α) → Option α
  | [] => none
  | (k2, v2) :: rest => if k2 = k then some v2 else assocGet k rest

/-! ## Service manager state (sentinel-service-kvm.py) -/

/-- Subset of the `kvm_resources` dict read by the manager logic
(`_check_resources` reads only `memory_available_mb`; the other fields are
logging / tuning hints). The snapshot is captured when the manager is
constructed and is never refreshed by `start_service`. -/
structure KvmResources where
  cpu_count : Nat
  memory_mb : Nat
  memory_available_mb : Nat
  deriving Repr, DecidableEq

/-- One entry of `self.services` (register_service, lines 118-133). -/
structure Service where
  name : String
  type : String
  config : List (String × String)
  status : String
  pid : Option Nat
  start_time : Option Nat
  memory_usage : Nat
  cpu_usage : Nat
  restart_count : Nat
  last_error : Option String
  cgroup : String
  deriving Repr, DecidableEq

structure Manager where
  kvm : KvmResources
  services : List (String × Service)
  deriving Repr, DecidableEq

def sentinelCgroup : String := "/sys/fs/cgroup/sentinel"

/-- `name.replace('.', '_')` as used for the cgroup path. -/
def cgroupName (name : String) : String :=
  String.mk (name.data.map (fun c => if c = '.' then '_' else c))

/-- The fresh record installed by `register_service`. -/
def freshService (name serviceType : String)
    (config : List (String × String)) : Service :=
  { name := name
    type := serviceType
    config := config
    status := "stopped"
    pid := none
    start_time := none
    memory_usage := 0
    cpu_usage := 0
    restart_count := 0
    last_error := none
    cgroup := sentinelCgroup ++ "/" ++ cgroupName name }

/-- `register_service(name, service_type, config)`: unconditionally writes
a fresh record under `name` (replacing any existing record). It touches no
process and reads no environment. -/
def register_service (m : Manager) (name serviceType : String)
    (config : List (String × String)) : Manager :=
  { m with services :=
      assocSet name (freshService name serviceType config) m.services }

def setService (m : Manager) (name : String) (svc : Service) : Manager :=
  { m with services := assocSet name svc m.services }

/-- Outcome of the protocol-specific `_start_*` routine, abstracting the
external process launch.  `ok pid` : the routine returned True having
written `service["pid"] = pid` (which may be `none` when the PID lookup
found nothing).  `fail pidW` : it returned False, possibly having written
a pid value on the way (e.g. `_start_dpi_bypass`).  `exc msg` : it raised
an exception with text `msg`. -/
inductive LaunchOutcome where
  | ok (pid : Option Nat)
  | fail (pidW : Option (Option Nat))
  | exc (msg : String)

structure StartEnv where
  /-- fresh `psutil.cpu_percent()` reading taken inside `_check_resources`
  (used only for a warning, never for denial). -/
  cpuPercent : Nat
  /-- `datetime.now()` at the moment of a successful start. -/
  now : Nat
  launch : LaunchOutcome

/-- `_check_resources` (lines 447-463): hard memory gate for the
memory-heavy types, reading the manager's stored
`kvm_resources["memory_available_mb"]`; the CPU branch only logs a warning
for xray / sing-box (the `cpuPercent` reading has no effect on the
result). -/
def check_resources (m : Manager) (cpuPercent : Nat) (svc : Service) :
    Bool :=
  if (svc.type = "xray" ∨ svc.type = "adguardhome" ∨
      svc.type = "hysteria2") ∧ m.kvm.memory_available_mb < 512 then
    false
  else
    -- cpu_percent > 80 for xray / sing-box: warning only
    let _warn := (svc.type = "xray" ∨ svc.type = "sing-box") ∧
      cpuPercent > 80
    true

/-- `start_service(name)` (lines 135-190). Returns the updated manager and
the boolean result. -/
def start_service (env : StartEnv) (m : Manager) (name : String) :
    Manager × Bool :=
  match assocGet name m.services with
  | none => (m, false)
  | some svc =>
      if check_resources m env.cpuPercent svc = false then
        -- denial path: only last_error is written, status/pid untouched
        (setService m name { svc with last_error := some "Insufficient resources" },
         false)
      else
        let svc1 := { svc with
          status := "starting"
          cgroup := sentinelCgroup ++ "/" ++ cgroupName name }
        match env.launch with
        | .ok pid =>
            (setService m name { svc1 with
              pid := pid
              status := "running"
              start_time := some env.now
              restart_count := 0 }, true)
        | .fail pidW =>
            (setService m name { svc1 with
              pid := pidW.getD svc1.pid
              status := "error"
              last_error := some "Start failed" }, false)
        | .exc msg =>
            (setService m name { svc1 with
              status := "error"
              last_error := some msg }, false)

structure StopEnv where
  /-- `some msg` when sending SIGTERM/SIGKILL to the recorded pid raises
  (e.g. `ProcessLookupError`); `none` when signalling returns normally.
  Unused when no pid is recorded (the signalling code is skipped). -/
  killRaise : Option String

/-- `stop_service(name)` (lines 192-230). -/
def stop_service (env : StopEnv) (m : Manager) (name : String) :
    Manager × Bool :=
  match assocGet name m.services with
  | none => (m, false)
  | some svc =>
      let svc1 := { svc with status := "stopping" }
      match svc.pid, env.killRaise with
      | some _, some msg =>
          (setService m name { svc1 with
            status := "error"
            last_error := some msg }, false)
      | _, _ =>
          (setService m name { svc1 with
            status := "stopped"
            pid := none
            start_time := none }, true)

structure StatusEnv where
  now : Nat
  /-- `psutil.Process(pid)` probe: `some (rssMb, cpuPercent)` when the
  process exists, `none` when the lookup raises (the bare `except: pass`
  then leaves the record untouched). -/
  proc : Nat → Option (Nat × Nat)

/-- Per-service entry of the dict returned by `get_status`. -/
structure ServiceStatus where
  type : String
  status : String
  pid : Option Nat
  memory_mb : Nat
  cpu_percent : Nat
  uptime : Nat
  restart_count : Nat
  deriving Repr, DecidableEq

/-- The in-place refresh `get_status` performs on each record that has a
recorded pid (lines 524-531): memory_usage / cpu_usage are overwritten
from the live process when the probe succeeds. -/
def refreshService (env : StatusEnv) (svc : Service) : Service :=
  match svc.pid with
  | some p =>
      match env.proc p with
      | some mc => { svc with memory_usage := mc.1, cpu_usage := mc.2 }
      | none => svc
  | none => svc

def statusEntry (env : StatusEnv) (svc : Service) : ServiceStatus :=
  { type := svc.type
    status := svc.status
    pid := svc.pid
    memory_mb := svc.memory_usage
    cpu_percent := svc.cpu_usage
    uptime := match svc.start_time with
      | some t => env.now - t
      | none => 0
    restart_count := svc.restart_count }

/-- `get_status()` (lines 512-544): refreshes usage fields in the registry
and returns the per-service report (the surrounding kvm/system block of
the returned dict carries no registry data and is omitted). -/
def get_status (env : StatusEnv) (m : Manager) :
    Manager × List (String × ServiceStatus) :=
  let services := m.services.map (fun p => (p.1, refreshService env p.2))
  ({ m with services := services },
   services.map (fun p => (p.1, statusEntry env p.2)))

structure MonitorEnv where
  /-- `_process_exists` probe (`os.kill(pid, 0)`). -/
  alive : Nat → Bool
  start : StartEnv

/-- One service step of `_monitor_loop` (lines 554-571). Returns the
updated manager and how many internal `start_service` calls were made
(0 or 1). -/
def monitorStep (env : MonitorEnv) (m : Manager) (name : String) :
    Manager × Nat :=
  match assocGet name m.services with
  | none => (m, 0)
  | some svc =>
      match svc.pid with
      | some p =>
          if svc.status = "running" ∧ p ≠ 0 ∧ env.alive p = false then
            let svc1 := { svc with restart_count := svc.restart_count + 1 }
            if svc1.restart_count < 3 then
              (Prod.fst (start_service env.start (setService m name svc1) name), 1)
            else
              (setService m name { svc1 with
                status := "error"
                last_error := some "Max restarts exceeded" }, 0)
          else (m, 0)
      | none => (m, 0)

/-- One full pass of the monitor loop body over the registry (iteration is
over the key list, re-reading each record, since `start_service` mutates
records in place). -/
def monitorScan (env : MonitorEnv) (m : Manager) : Manager × Nat :=
  (m.services.map Prod.fst).foldl
    (fun acc n =>
      let r := monitorStep env acc.1 n
      (r.1, acc.2 + r.2))
    (m, 0)

/-- `n` consecutive monitor passes under a fixed environment, counting the
total number of internally triggered start attempts. -/
def monitorScans (env : MonitorEnv) : Nat → Manager → Manager × Nat
  | 0, m => (m, 0)
  | n + 1, m =>
      let r := monitorScan env m
      let r2 := monitorScans env n r.1
      (r2.1, r.2 + r2.2)

/-! ## Character-level Python string primitives

The parser below (sentinel-parser-kvm.py) works on `List Char`, the
character sequence of a Python `str`; `String.data` injects Lean string
literals. -/

/-- Python `str` whitespace (ASCII subset, sufficient for the inputs the
theorems quantify over). -/
def pyWs (c : Char) : Bool :=
  c == ' ' || c == '\t' || c == '\n' || c == '\r' || c == '\x0b' || c == '\x0c'

def lstrip (l : List Char) : List Char := l.dropWhile pyWs

def rstrip (l : List Char) : List Char :=
  (l.reverse.dropWhile pyWs).reverse

/-- Python `str.strip()`. -/
def pyStrip (l : List Char) : List Char := rstrip (lstrip l)

/-- Python `str.lower()` (ASCII). -/
def asciiLower (c : Char) : Char :=
  if 'A' ≤ c ∧ c ≤ 'Z' then Char.ofNat (c.toNat + 32) else c

def pyLower (l : List Char) : List Char := l.map asciiLower

/-- Python `s.split(sep)` for a one-character separator (always returns at
least one piece). -/
def pySplitAll (sep : Char) : List Char → List (List Char)
  | [] => [[]]
  | c :: rest =>
      match pySplitAll sep rest with
      | [] => [[]]
      | cur :: parts =>
          if c = sep then [] :: cur :: parts else (c :: cur) :: parts

/-- Python `s.split(sep, 1)`: `some (before, after)` at the first
occurrence, `none` when the separator is absent. -/
def pySplitFirst (sep : Char) : List Char → Option (List Char × List Char)
  | [] => none
  | c :: rest =>
      if c = sep then some ([], rest)
      else
        match pySplitFirst sep rest with
        | none => none
        | some ab => some (c :: ab.1, ab.2)

/-- Python `needle in haystack` (substring). -/
def hasInfix (p : List Char) : List Char → Bool
  | [] => p.isEmpty
  | c :: rest => p.isPrefixOf (c :: rest) || hasInfix p rest

def lbrace : Char := Char.ofNat 123

def headIs (c : Char) (l : List Char) : Bool :=
  match l with
  | c2 :: _ => c2 == c
  | [] => false

def lastIs (c : Char) (l : List Char) : Bool :=
  match l.getLast? with
  | some c2 => c2 == c
  | none => false

/-! ## JSON values and library-call oracles

`json.loads`, `urllib.parse.urlparse`, `urllib.parse.parse_qs` and the
`re.findall` calls of the generic decoder are Python library functions;
they are modelled as explicit function parameters (collected in `Libs`),
so every theorem quantifies over their behaviour.  A raising call is an
`Except.error`. -/

inductive JValue where
  | null
  | bool (b : Bool)
  | num (n : Int)
  | str (s : List Char)
  | arr (elems : List JValue)
  | obj (fields : List (List Char × JValue))

/-- Python `key in json_value` (`in` on a dict tests keys, on a list tests
elements, on a str tests substring; on anything else it raises). -/
def jMember (k : List Char) : JValue → Except String Bool
  | .obj fields => .ok (fields.any (fun f => f.1 == k))
  | .arr elems =>
      .ok (elems.any (fun e =>
        match e with
        | .str s => s == k
        | _ => false))
  | .str s => .ok (hasInfix k s)
  | _ => .error "argument is not iterable"

/-- Result of `urllib.parse.urlparse` restricted to the accessors the
source uses.  `username`/`hostname` are `none` when absent (the source
applies `or ""`); accessing `.port` raises on a malformed port, hence the
`Except`. -/
structure UrlParts where
  username : Option (List Char)
  hostname : Option (List Char)
  port : Except String (Option Nat)
  query : List Char
  fragment : List Char

structure Libs where
  jsonLoads : List Char → Except String JValue
  urlparse : List Char → UrlParts
  /-- `urllib.parse.parse_qs`; real `parse_qs` never produces an empty
  value list, and the model reads the first value with a default
  accordingly. -/
  parseQs : List Char → List (List Char × List (List Char))
  /-- the three `re.findall` scans of the generic decoder: IPv4-looking
  tokens, `port=`/`port:` numbers, long base64-alphabet runs. -/
  findIps : List Char → List (List Char)
  findPorts : List Char → List (List Char)
  findKeys : List Char → List (List Char)

def qsFirst (vs : List (List Char)) : List Char := vs.headD []

/-! ## Protocol detection (`_detect_protocol`, lines 110-153) -/

def detect_protocol (L : Libs) (data0 : List Char) : List Char :=
  let data := pyStrip data0
  if ("ss://".data).isPrefixOf data then "shadowsocks".data
  else if ("trojan://".data).isPrefixOf data then "trojan".data
  else if ("vless://".data).isPrefixOf data ||
      ("vmess://".data).isPrefixOf data then "xray".data
  else if ("wg://".data).isPrefixOf data ||
      ("wireguard://".data).isPrefixOf data then "wireguard".data
  else if ("amnezia://".data).isPrefixOf data then "amneziawg".data
  else if ("hysteria://".data).isPrefixOf data ||
      ("hy2://".data).isPrefixOf data then "hysteria2".data
  else if hasInfix "[Interface]".data data && hasInfix "[Peer]".data data then
    if hasInfix "Jc".data data || hasInfix "Jmin".data data then
      "amneziawg".data
    else "wireguard".data
  else if hasInfix "client".data (pyLower data) &&
      hasInfix "dev tun".data (pyLower data) then "openvpn".data
  else
    -- JSON branch: returns only when loads succeeds and a key matches;
    -- an exception anywhere inside the try falls through silently
    match
      (if headIs lbrace data then
        match L.jsonLoads data with
        | .error _ => none
        | .ok j =>
            match jMember "outbounds".data j with
            | .error _ => none
            | .ok true => some "sing-box".data
            | .ok false =>
                match jMember "inbounds".data j with
                | .error _ => none
                | .ok true => some "xray".data
                | .ok false => none
      else none) with
    | some r => r
    | none =>
        if hasInfix "SOCKSPort".data data ||
            hasInfix "torrc".data (pyLower data) then "tor".data
        else "unknown".data

/-! ## WireGuard / AmneziaWG decoder (`_parse_wireguard`, lines 155-271) -/

/-- The claim-relevant fields of the dict built by `_parse_wireguard` /
`_parse_wireguard_url` (the constant `kvm_optimizations` block is
omitted). -/
structure WGResult where
  type : List Char
  interface : List (List Char × List Char)
  peers : List (List (List Char × List Char))
  name : Option (List Char)
  deriving DecidableEq

structure WGState where
  cur_section : Option (List Char)
  curPeer : List (List Char × List Char)
  iface : List (List Char × List Char)
  peers : List (List (List Char × List Char))
  deriving DecidableEq

/-- One iteration of the INI line loop (lines 177-198). -/
def wgLine (st : WGState) (line0 : List Char) : WGState :=
  let line := pyStrip line0
  if line.isEmpty || headIs '#' line then st
  else if headIs '[' line && lastIs ']' line then
    let sec := (line.drop 1).dropLast
    if sec = "Peer".data then
      if st.curPeer.isEmpty then
        { st with cur_section := some sec, curPeer := [] }
      else
        { st with
          cur_section := some sec
          curPeer := []
          peers := st.peers ++ [st.curPeer] }
    else { st with cur_section := some sec }
  else if hasInfix ['='] line then
    match pySplitFirst '=' line with
    | none => st
    | some kv =>
        let key := pyLower (pyStrip kv.1)
        let value := pyStrip kv.2
        if st.cur_section = some "Interface".data then
          { st with iface := assocSet key value st.iface }
        else if st.cur_section = some "Peer".data then
          { st with curPeer := assocSet key value st.curPeer }
        else st
  else st

def awgParams : List (List Char) :=
  ["jc".data, "jmin".data, "jmax".data, "s1".data, "s2".data,
   "h1".data, "h2".data, "h3".data, "h4".data]

/-- INI branch of `_parse_wireguard` (everything after the URL check):
line loop, trailing-peer flush, AmneziaWG key upgrade. -/
def parse_wireguard_ini (data : List Char) : WGResult :=
  let fin := (pySplitAll '\n' data).foldl wgLine ⟨none, [], [], []⟩
  let peers :=
    if fin.curPeer.isEmpty then fin.peers else fin.peers ++ [fin.curPeer]
  let t :=
    if awgParams.any (fun p => (assocGet p fin.iface).isSome) then
      "amneziawg".data
    else "wireguard".data
  ⟨t, fin.iface, peers, none⟩

/-- `_parse_wireguard_url` (lines 211-251). -/
def parse_wireguard_url (L : Libs) (url0 : List Char) : WGResult :=
  let url1 :=
    if ("wg://".data).isPrefixOf url0 then url0.drop 5
    else if ("wireguard://".data).isPrefixOf url0 then url0.drop 12
    else url0
  let (url2, nm) :=
    match pySplitFirst '#' url1 with
    | some ab => (ab.1, some ab.2)
    | none => (url1, none)
  let (url3, iface0) :=
    match pySplitFirst '?' url2 with
    | some ab =>
        (ab.1,
         (L.parseQs ab.2).foldl
           (fun acc kv => assocSet (pyLower kv.1) (qsFirst kv.2) acc) [])
    | none => (url2, [])
  match pySplitFirst '@' url3 with
  | some ke =>
      (match pySplitFirst '+' ke.1 with
       | some pp =>
           ⟨"wireguard".data,
            assocSet "privatekey".data pp.1 iface0,
            [[("publickey".data, pp.2), ("endpoint".data, ke.2)]], nm⟩
       | none =>
           ⟨"wireguard".data,
            assocSet "privatekey".data ke.1 iface0,
            [[("endpoint".data, ke.2)]], nm⟩)
  | none => ⟨"wireguard".data, iface0, [], nm⟩

/-- `_parse_wireguard` (URL dispatch plus INI body). -/
def parse_wireguard (L : Libs) (data : List Char) : WGResult :=
  if ("wg://".data).isPrefixOf data ||
      ("wireguard://".data).isPrefixOf data then
    parse_wireguard_url L data
  else parse_wireguard_ini data

/-- `_parse_amneziawg` (lines 253-271): WireGuard parse, forced type,
missing junk-packet tunables filled with defaults. -/
def parse_amneziawg (L : Libs) (data : List Char) : WGResult :=
  let r := parse_wireguard L data
  let defaults : List (List Char × List Char) :=
    [("jc".data, "4".data), ("jmin".data, "30".data),
     ("jmax".data, "50".data), ("s1".data, "120".data),
     ("s2".data, "150".data)]
  let iface := defaults.foldl
    (fun acc kv =>
      if (assocGet kv.1 acc).isSome then acc else assocSet kv.1 kv.2 acc)
    r.interface
  { r with type := "amneziawg".data, interface := iface }

/-! ## Byte-level library primitives

Models of the Python standard-library routines the parser calls:
`base64.b64decode` / `b64encode`, `bytes.decode("utf-8")`, `int(str)`,
`urllib.parse.unquote` and `str.split()`. -/

def encodeB64Char (k : Nat) : Char :=
  if k < 26 then Char.ofNat (65 + k)
  else if k < 52 then Char.ofNat (97 + (k - 26))
  else if k < 62 then Char.ofNat (48 + (k - 52))
  else if k = 62 then '+'
  else '/'

def decodeB64Char (c : Char) : Option Nat :=
  if 'A' ≤ c ∧ c ≤ 'Z' then some (c.toNat - 65)
  else if 'a' ≤ c ∧ c ≤ 'z' then some (c.toNat - 97 + 26)
  else if '0' ≤ c ∧ c ≤ '9' then some (c.toNat - 48 + 52)
  else if c = '+' then some 62
  else if c = '/' then some 63
  else none

def isB64Char (c : Char) : Bool := (decodeB64Char c).isSome

/-- Decode 6-bit units in groups of four (two or three units close a
final partial group; a single trailing unit is a padding error). -/
def b64Groups : List Nat → Option (List Nat)
  | [] => some []
  | [_] => none
  | [k1, k2] => some [k1 * 4 + k2 / 16]
  | [k1, k2, k3] => some [k1 * 4 + k2 / 16, (k2 % 16) * 16 + k3 / 4]
  | k1 :: k2 :: k3 :: k4 :: rest =>
      (b64Groups rest).map
        (fun bs => (k1 * 4 + k2 / 16) :: ((k2 % 16) * 16 + k3 / 4) ::
          ((k3 % 4) * 64 + k4) :: bs)

/-- Model of `base64.b64decode` (validate=False): characters outside the
alphabet and padding are discarded, the retained length (data plus
padding) must be a multiple of 4, and the data characters before the
first padding character are decoded. -/
def b64decode (s : List Char) : Option (List Nat) :=
  let kept := s.filter (fun c => isB64Char c || c == '=')
  if kept.length % 4 ≠ 0 then none
  else
    b64Groups ((kept.takeWhile (fun c => c != '=')).filterMap decodeB64Char)

/-- Standard padded base64 of a byte list (`base64.b64encode`). -/
def b64encode : List Nat → List Char
  | [] => []
  | [b1] =>
      [encodeB64Char (b1 / 4), encodeB64Char ((b1 % 4) * 16), '=', '=']
  | [b1, b2] =>
      [encodeB64Char (b1 / 4), encodeB64Char ((b1 % 4) * 16 + b2 / 16),
       encodeB64Char ((b2 % 16) * 4), '=']
  | b1 :: b2 :: b3 :: rest =>
      encodeB64Char (b1 / 4) :: encodeB64Char ((b1 % 4) * 16 + b2 / 16) ::
      encodeB64Char ((b2 % 16) * 4 + b3 / 64) :: encodeB64Char (b3 % 64) ::
      b64encode rest

/-- UTF-8 bytes of one character. -/
def utf8EncodeChar (c : Char) : List Nat :=
  let n := c.toNat
  if n < 128 then [n]
  else if n < 2048 then [192 + n / 64, 128 + n % 64]
  else if n < 65536 then
    [224 + n / 4096, 128 + (n / 64) % 64, 128 + n % 64]
  else [240 + n / 262144, 128 + (n / 4096) % 64, 128 + (n / 64) % 64,
    128 + n % 64]

def utf8Encode : List Char → List Nat
  | [] => []
  | c :: rest => utf8EncodeChar c ++ utf8Encode rest

def isCont (b : Nat) : Bool := 128 ≤ b ∧ b ≤ 191

/-- Strict UTF-8 decoding, fuelled recursion (each step consumes at least
one byte, so fuel equal to the byte count is always enough). -/
def utf8DecodeGo : Nat → List Nat → Option (List Char)
  | _, [] => some []
  | 0, _ :: _ => none
  | fuel + 1, b :: rest =>
      if b < 128 then
        (utf8DecodeGo fuel rest).map (fun cs => Char.ofNat b :: cs)
      else if 194 ≤ b ∧ b ≤ 223 then
        match rest with
        | b2 :: rest2 =>
            if isCont b2 then
              (utf8DecodeGo fuel rest2).map
                (fun cs => Char.ofNat ((b - 192) * 64 + (b2 - 128)) :: cs)
            else none
        | [] => none
      else if 224 ≤ b ∧ b ≤ 239 then
        match rest with
        | b2 :: b3 :: rest2 =>
            if isCont b2 ∧ isCont b3 ∧
                (b = 224 → 160 ≤ b2) ∧ (b = 237 → b2 < 160) then
              (utf8DecodeGo fuel rest2).map
                (fun cs => Char.ofNat ((b - 224) * 4096 +
                  (b2 - 128) * 64 + (b3 - 128)) :: cs)
            else none
        | _ => none
      else if 240 ≤ b ∧ b ≤ 244 then
        match rest with
        | b2 :: b3 :: b4 :: rest2 =>
            if isCont b2 ∧ isCont b3 ∧ isCont b4 ∧
                (b = 240 → 144 ≤ b2) ∧ (b = 244 → b2 < 144) then
              (utf8DecodeGo fuel rest2).map
                (fun cs => Char.ofNat ((b - 240) * 262144 +
                  (b2 - 128) * 4096 + (b3 - 128) * 64 + (b4 - 128)) :: cs)
            else none
        | _ => none
      else none

/-- Strict UTF-8 decoding (`bytes.decode("utf-8")`): `none` on any
malformed, overlong, surrogate or out-of-range sequence. -/
def utf8Decode (l : List Nat) : Option (List Char) := utf8DecodeGo l.length l

/-- UTF-8 decoding with U+FFFD replacement of each undecodable byte
(`errors="replace"`, per-byte approximation). -/
def utf8DecodeReplace : List Nat → List Char
  | [] => []
  | b :: rest =>
      if b < 128 then Char.ofNat b :: utf8DecodeReplace rest
      else if 194 ≤ b ∧ b ≤ 223 then
        match rest with
        | b2 :: rest2 =>
            if isCont b2 then
              Char.ofNat ((b - 192) * 64 + (b2 - 128)) ::
                utf8DecodeReplace rest2
            else Char.ofNat 65533 :: utf8DecodeReplace (b2 :: rest2)
        | [] => [Char.ofNat 65533]
      else if 224 ≤ b ∧ b ≤ 239 then
        match rest with
        | b2 :: b3 :: rest2 =>
            if isCont b2 ∧ isCont b3 ∧
                (b = 224 → 160 ≤ b2) ∧ (b = 237 → b2 < 160) then
              Char.ofNat ((b - 224) * 4096 + (b2 - 128) * 64 +
                (b3 - 128)) :: utf8DecodeReplace rest2
            else Char.ofNat 65533 :: utf8DecodeReplace (b2 :: b3 :: rest2)
        | _ => [Char.ofNat 65533]
      else if 240 ≤ b ∧ b ≤ 244 then
        match rest with
        | b2 :: b3 :: b4 :: rest2 =>
            if isCont b2 ∧ isCont b3 ∧ isCont b4 ∧
                (b = 240 → 144 ≤ b2) ∧ (b = 244 → b2 < 144) then
              Char.ofNat ((b - 240) * 262144 + (b2 - 128) * 4096 +
                (b3 - 128) * 64 + (b4 - 128)) :: utf8DecodeReplace rest2
            else
              Char.ofNat 65533 :: utf8DecodeReplace (b2 :: b3 :: b4 :: rest2)
        | _ => [Char.ofNat 65533]
      else Char.ofNat 65533 :: utf8DecodeReplace rest

/-- `int(str)` for decimal literals: optional surrounding whitespace and
sign, at least one digit. -/
def pyInt (s : List Char) : Except String Int :=
  let t := pyStrip s
  let sd : Bool × List Char :=
    match t with
    | c :: rest =>
        if c = '-' then (true, rest)
        else if c = '+' then (false, rest)
        else (false, c :: rest)
    | [] => (false, [])
  if !sd.2.isEmpty && sd.2.all Char.isDigit then
    let n := sd.2.foldl (fun acc c => acc * 10 + (c.toNat - 48)) (0 : Nat)
    .ok (if sd.1 then -(n : Int) else (n : Int))
  else .error "invalid literal for int with base 10"

def digitChar (d : Nat) : Char :=
  if d = 0 then '0' else if d = 1 then '1' else if d = 2 then '2'
  else if d = 3 then '3' else if d = 4 then '4' else if d = 5 then '5'
  else if d = 6 then '6' else if d = 7 then '7' else if d = 8 then '8'
  else '9'

/-- Decimal rendering of a natural number. -/
def decimalString (n : Nat) : List Char :=
  if h : n < 10 then [digitChar n]
  else decimalString (n / 10) ++ [digitChar (n % 10)]
  termination_by n
  decreasing_by
    simp only [not_lt] at h
    omega

def hexVal (c : Char) : Option Nat :=
  if '0' ≤ c ∧ c ≤ '9' then some (c.toNat - 48)
  else if 'A' ≤ c ∧ c ≤ 'F' then some (c.toNat - 55)
  else if 'a' ≤ c ∧ c ≤ 'f' then some (c.toNat - 87)
  else none

/-- `urllib.parse.unquote`: maximal `%XX` runs are collected as bytes and
UTF-8 decoded with replacement; an invalid escape leaves the percent sign
literal. -/
def unquoteAux (pending : List Nat) : List Char → List Char
  | [] => utf8DecodeReplace pending
  | '%' :: c1 :: c2 :: rest =>
      match hexVal c1, hexVal c2 with
      | some h1, some h2 => unquoteAux (pending ++ [h1 * 16 + h2]) rest
      | _, _ =>
          utf8DecodeReplace pending ++ '%' :: unquoteAux [] (c1 :: c2 :: rest)
  | c :: rest => utf8DecodeReplace pending ++ c :: unquoteAux [] rest

def pyUnquote (s : List Char) : List Char := unquoteAux [] s

/-- `str.split()` (whitespace word split, no empty words). -/
def pyWordsAux (cur : List Char) : List Char → List (List Char)
  | [] => if cur.isEmpty then [] else [cur.reverse]
  | c :: rest =>
      if pyWs c then
        if cur.isEmpty then pyWordsAux [] rest
        else cur.reverse :: pyWordsAux [] rest
      else pyWordsAux (c :: cur) rest

def pyWords (l : List Char) : List (List Char) := pyWordsAux [] l

/-- Join lines with newlines (inverse of `split('\n')` for
newline-free lines). -/
def joinNl : List (List Char) → List Char
  | [] => []
  | [l] => l
  | l :: rest => l ++ '\n' :: joinNl rest

/-! ## Format-specific decoders (sentinel-parser-kvm.py)

Each `_parse_*` method is modelled as a function returning its
claim-relevant dict fields (the constant `kvm_optimizations` block and
the timestamp are omitted); a decoder that can propagate an exception to
`parse` returns `Except String`. -/

def jTruthy : JValue → Bool
  | .null => false
  | .bool b => b
  | .num n => n ≠ 0
  | .str s => !s.isEmpty
  | .arr xs => !xs.isEmpty
  | .obj fs => !fs.isEmpty

def jEqStr (j : JValue) (s : List Char) : Bool :=
  match j with
  | .str t => t == s
  | _ => false

/-- `int(x)` on a decoded JSON value. -/
def pyIntOfJ : JValue → Except String Int
  | .num n => .ok n
  | .str s => pyInt s
  | .bool b => .ok (if b then 1 else 0)
  | _ => .error "int argument must be a string or a number"

/-- `len(x)` on a decoded JSON value. -/
def jLen : JValue → Except String Int
  | .arr xs => .ok xs.length
  | .obj fs => .ok fs.length
  | .str s => .ok s.length
  | _ => .error "object has no len"

/-- `_parse_vless_url`. -/
structure VlessResult where
  uuid : List Char
  server : List Char
  port : Nat
  flow : List Char
  network : List Char
  security : List Char
  reality : Option (List Char × List Char × List Char)
  name : Option (List Char)

def parse_vless_url (L : Libs) (url : List Char) : Except String VlessResult :=
  let u := L.urlparse url
  match u.port with
  | .error e => .error e
  | .ok port? =>
      let port := match port? with
        | some p => if p = 0 then 443 else p
        | none => 443
      let params := if u.query.isEmpty then [] else L.parseQs u.query
      let network := match assocGet "type".data params with
        | some vs => qsFirst vs
        | none => "tcp".data
      let security0 := match assocGet "security".data params with
        | some vs => qsFirst vs
        | none => "none".data
      let flow := match assocGet "flow".data params with
        | some vs => qsFirst vs
        | none => []
      let server := (u.hostname).getD []
      let reality := match assocGet "pbk".data params with
        | some vs => some (qsFirst vs,
            qsFirst ((assocGet "sid".data params).getD [[]]),
            qsFirst ((assocGet "sni".data params).getD [server]))
        | none => none
      .ok { uuid := (u.username).getD []
            server := server
            port := port
            flow := flow
            network := network
            security := if reality.isSome then "reality".data else security0
            reality := reality
            name := if u.fragment.isEmpty then none else some u.fragment }

/-- `_parse_trojan_url`. -/
structure TrojanResult where
  password : List Char
  server : List Char
  port : Nat
  network : List Char
  sni : Option (List Char)
  name : Option (List Char)

def parse_trojan_url (L : Libs) (url : List Char) :
    Except String TrojanResult :=
  let u := L.urlparse url
  match u.port with
  | .error e => .error e
  | .ok port? =>
      let port := match port? with
        | some p => if p = 0 then 443 else p
        | none => 443
      let params := if u.query.isEmpty then [] else L.parseQs u.query
      .ok { password := (u.username).getD []
            server := (u.hostname).getD []
            port := port
            network := match assocGet "type".data params with
              | some vs => qsFirst vs
              | none => "tcp".data
            sni := (assocGet "sni".data params).map qsFirst
            name := if u.fragment.isEmpty then none else some u.fragment }

/-- `_parse_vmess_url` result on the success path. -/
structure VmessResult where
  uuid : JValue
  server : JValue
  port : Int
  aid : Int
  network : JValue
  security : JValue
  ws : Option (JValue × JValue)

/-- `_parse_xray_json`. -/
structure XrayJsonResult where
  inbounds : JValue
  outbounds : JValue
  protocol : JValue
  settings : Option JValue
  stream_settings : Option JValue

def parse_xray_json (config : JValue) : Except String XrayJsonResult :=
  match config with
  | .obj fields =>
      let inb := (assocGet "inbounds".data fields).getD (.arr [])
      let outb := (assocGet "outbounds".data fields).getD (.arr [])
      if jTruthy outb then
        match outb with
        | .arr (first :: _) =>
            match first with
            | .obj ofields =>
                .ok { inbounds := inb
                      outbounds := outb
                      protocol := (assocGet "protocol".data ofields).getD
                        (.str "xray".data)
                      settings := some ((assocGet "settings".data
                        ofields).getD (.obj []))
                      stream_settings :=
                        assocGet "streamSettings".data ofields }
            | _ => .error "object has no attribute get"
        | _ => .error "indices must be integers"
      else
        .ok { inbounds := inb
              outbounds := outb
              protocol := .str "xray".data
              settings := none
              stream_settings := none }
  | _ => .error "object has no attribute get"

/-- `_parse_shadowsocks`. -/
structure SSResult where
  method : Option (List Char)
  password : Option (List Char)
  server : Option (List Char)
  port : Option Int
  plugin : Option (List Char)
  name : Option (List Char)
  error : Option String

def parse_shadowsocks (L : Libs) (data0 : List Char) : SSResult :=
  let d1 := if ("ss://".data).isPrefixOf data0 then data0.drop 5 else data0
  let d2name : List Char × Option (List Char) :=
    match pySplitFirst '#' d1 with
    | some ab => (ab.1, some (pyUnquote ab.2))
    | none => (d1, none)
  let d3plugin : List Char × Option (List Char) :=
    match pySplitFirst '?' d2name.1 with
    | some ab =>
        (ab.1, (assocGet "plugin".data (L.parseQs ab.2)).map qsFirst)
    | none => (d2name.1, none)
  match pySplitFirst '@' d3plugin.1 with
  | none =>
      { method := none, password := none, server := none, port := none,
        plugin := d3plugin.2, name := d2name.2, error := none }
  | some auths =>
      -- inner try: base64 then utf-8; on failure fall back to plain split
      let mp : Option (List Char × List Char) :=
        match b64decode auths.1 with
        | some bytes =>
            match utf8Decode bytes with
            | some decoded => pySplitFirst ':' decoded
            | none => pySplitFirst ':' auths.1
        | none => pySplitFirst ':' auths.1
      match pySplitFirst ':' auths.2 with
      | some sp =>
          match pyInt sp.2 with
          | .ok n =>
              { method := mp.map Prod.fst, password := mp.map Prod.snd,
                server := some sp.1, port := some n,
                plugin := d3plugin.2, name := d2name.2, error := none }
          | .error e =>
              { method := mp.map Prod.fst, password := mp.map Prod.snd,
                server := some sp.1, port := none,
                plugin := d3plugin.2, name := d2name.2, error := some e }
      | none =>
          { method := mp.map Prod.fst, password := mp.map Prod.snd,
            server := none, port := none,
            plugin := d3plugin.2, name := d2name.2, error := none }

/-- `_parse_singbox` outbound entry: type, tag, optional server and
server_port. -/
structure SingboxEntry where
  type : JValue
  tag : JValue
  server : Option JValue
  port : Option JValue

def singboxEntry (fields : List (List Char × JValue)) : SingboxEntry :=
  { type := (assocGet "type".data fields).getD .null
    tag := (assocGet "tag".data fields).getD .null
    server := assocGet "server".data fields
    port := assocGet "server_port".data fields }

def singboxOutboundsGo : List JValue →
    List SingboxEntry → List SingboxEntry × Option String
  | [], acc => (acc, none)
  | .obj fields :: rest, acc =>
      singboxOutboundsGo rest (acc ++ [singboxEntry fields])
  | _ :: _, acc => (acc, some "object has no attribute get")

def singboxOutbounds : JValue → List SingboxEntry × Option String
  | .arr elems => singboxOutboundsGo elems []
  | _ => ([], some "not iterable as outbounds")

structure SingboxResult where
  config : Option JValue
  outbounds : Option (List SingboxEntry)
  inbounds : Option Int
  error : Option String

def singboxInbounds (j : JValue) : Except String (Option Int) :=
  match jMember "inbounds".data j with
  | .error e => .error e
  | .ok false => .ok none
  | .ok true =>
      match j with
      | .obj fields =>
          match jLen ((assocGet "inbounds".data fields).getD .null) with
          | .ok n => .ok (some n)
          | .error e => .error e
      | _ => .error "indices must be integers"

def parse_singbox (L : Libs) (data : List Char) : SingboxResult :=
  match L.jsonLoads data with
  | .error e => ⟨none, none, none, some e⟩
  | .ok j =>
      match jMember "outbounds".data j with
      | .error e => ⟨some j, none, none, some e⟩
      | .ok true =>
          match j with
          | .obj fields =>
              let v := (assocGet "outbounds".data fields).getD .null
              match singboxOutbounds v with
              | (entries, some e) => ⟨some j, some entries, none, some e⟩
              | (entries, none) =>
                  match singboxInbounds j with
                  | .ok inb => ⟨some j, some entries, inb, none⟩
                  | .error e => ⟨some j, some entries, none, some e⟩
          | _ => ⟨some j, some [], none, some "indices must be integers"⟩
      | .ok false =>
          match singboxInbounds j with
          | .ok inb => ⟨some j, none, inb, none⟩
          | .error e => ⟨some j, none, none, some e⟩

/-- `_parse_hysteria2`. -/
structure Hy2Result where
  server : Option (List Char)
  port : Option Int
  auth : Option (List Char)
  up_mbps : Option Int
  down_mbps : Option Int
  config : Option JValue

def parse_hysteria2 (L : Libs) (data : List Char) :
    Except String Hy2Result :=
  if ("hysteria://".data).isPrefixOf data ||
      ("hy2://".data).isPrefixOf data then
    let d := if ("hysteria://".data).isPrefixOf data then data.drop 11
      else data.drop 6
    match pySplitFirst '?' d with
    | none => .ok ⟨none, none, none, none, none, none⟩
    | some aq =>
        let params := L.parseQs aq.2
        let spE : Except String (List Char × Int) :=
          match pySplitFirst ':' aq.1 with
          | some sp =>
              match pyInt sp.2 with
              | .ok n => .ok (sp.1, n)
              | .error e => .error e
          | none => .ok (aq.1, 443)
        match spE with
        | .error e => .error e
        | .ok sp =>
            let upE : Except String (Option Int) :=
              match assocGet "up".data params with
              | some vs =>
                  match pyInt (qsFirst vs) with
                  | .ok n => .ok (some n)
                  | .error e => .error e
              | none => .ok none
            match upE with
            | .error e => .error e
            | .ok up =>
                let downE : Except String (Option Int) :=
                  match assocGet "down".data params with
                  | some vs =>
                      match pyInt (qsFirst vs) with
                      | .ok n => .ok (some n)
                      | .error e => .error e
                  | none => .ok none
                match downE with
                | .error e => .error e
                | .ok down =>
                    .ok ⟨some sp.1, some sp.2,
                      (assocGet "auth".data params).map qsFirst, up, down,
                      none⟩
  else
    match L.jsonLoads data with
    | .ok j => .ok ⟨none, none, none, none, none, some j⟩
    | .error _ => .ok ⟨none, none, none, none, none, none⟩

/-- `_parse_tor`: line fold plus the (always-firing, case-mismatched)
SOCKSPort / ControlPort defaults. -/
def parse_tor (data : List Char) : List (List Char × List Char) :=
  let settings := (pySplitAll '\n' data).foldl
    (fun acc line0 =>
      let line := pyStrip line0
      if line.isEmpty || headIs '#' line then acc
      else
        match pySplitFirst ' ' line with
        | some kv => assocSet (pyLower kv.1) (pyStrip kv.2) acc
        | none => acc) []
  let s2 := if (assocGet "SOCKSPort".data settings).isSome then settings
    else assocSet "SOCKSPort".data "9050".data settings
  if (assocGet "ControlPort".data s2).isSome then s2
  else assocSet "ControlPort".data "9051".data s2

/-- `_parse_dpi_bypass` argument loop. -/
def dpiArgsGo : List (List Char) → List (List Char × JValue) →
    List (List Char × JValue)
  | [], acc => acc
  | a :: rest, acc =>
      if ("--".data).isPrefixOf a then
        let key := a.drop 2
        match rest with
        | b :: rest2 =>
            if ("--".data).isPrefixOf b then
              dpiArgsGo (b :: rest2) (assocSet key (.bool true) acc)
            else dpiArgsGo rest2 (assocSet key (.str b) acc)
        | [] => dpiArgsGo [] (assocSet key (.bool true) acc)
      else dpiArgsGo rest acc
  termination_by l _ => l.length
  decreasing_by
    all_goals simp_wf
    all_goals omega

def parse_dpi_bypass (data : List Char) : List (List Char × JValue) :=
  dpiArgsGo (pyWords data) []

/-- `_parse_generic` diagnostics (the regex scans are oracles in
`Libs`). -/
inductive GenericDetected where
  | ips (xs : List (List Char))
  | ports (xs : List (List Char))
  | keys

structure GenericResult where
  raw_data : List Char
  detected : List GenericDetected

def parse_generic (L : Libs) (data : List Char) : GenericResult :=
  { raw_data := if data.length > 500 then data.take 500 ++ "...".data
      else data
    detected :=
      (if (L.findIps data).isEmpty then []
        else [GenericDetected.ips ((L.findIps data).take 5)]) ++
      (if (L.findPorts (pyLower data)).isEmpty then []
        else [GenericDetected.ports ((L.findPorts (pyLower data)).take 5)]) ++
      (if (L.findKeys data).isEmpty then [] else [GenericDetected.keys]) }

/-- `_parse_openvpn`: the `auth` entry starts as a dict but the `auth`
directive replaces it with a plain string, making a later
`auth-user-pass` raise. -/
inductive OvpnAuth where
  | dict (entries : List (List Char × JValue))
  | str (s : List Char)

structure OvpnState where
  remote : List (List Char × Int × List Char)
  proto : Option (List Char)
  dev : Option (List Char)
  cipher : Option (List Char)
  auth : OvpnAuth
  inline_keys : List (List Char × List Char)
  current_inline : Option (List Char)
  inline_content : List (List Char)

def ovpnLine (st : OvpnState) (line0 : List Char) :
    Except String OvpnState :=
  let line := pyStrip line0
  if line.isEmpty || headIs '#' line then .ok st
  else if headIs '<' line && lastIs '>' line then
    -- note: this branch also captures closing tags such as </ca>
    .ok { st with
      current_inline := some ((line.drop 1).dropLast)
      inline_content := [] }
  else if ("</".data).isPrefixOf line && lastIs '>' line then
    -- dead in practice (subsumed by the previous branch); kept verbatim
    match st.current_inline with
    | some tag =>
        .ok { st with
          inline_keys := assocSet (pyLower tag) (joinNl st.inline_content)
            st.inline_keys
          current_inline := none }
    | none => .ok st
  else
    match st.current_inline with
    | some _ => .ok { st with inline_content := st.inline_content ++ [line] }
    | none =>
        match pyWords line with
        | [] => .ok st
        | directive0 :: rest =>
            let directive := pyLower directive0
            if directive = "remote".data then
              match rest with
              | [] => .ok st
              | server :: rest2 =>
                  match rest2 with
                  | [] =>
                      .ok { st with
                        remote := st.remote ++ [(server, 1194, "udp".data)] }
                  | portStr :: rest3 =>
                      match pyInt portStr with
                      | .error e => .error e
                      | .ok port =>
                          let proto := match rest3 with
                            | p :: _ => p
                            | [] => "udp".data
                          .ok { st with
                            remote := st.remote ++ [(server, port, proto)] }
            else if directive = "proto".data then
              .ok { st with proto := some (rest.headD "udp".data) }
            else if directive = "dev".data then
              .ok { st with dev := some (rest.headD "tun".data) }
            else if directive = "cipher".data then
              .ok { st with cipher := some (rest.headD "AES-256-GCM".data) }
            else if directive = "auth".data then
              .ok { st with auth := OvpnAuth.str (rest.headD "SHA512".data) }
            else if directive = "auth-user-pass".data then
              match st.auth with
              | .dict entries =>
                  let e2 := assocSet "user_pass".data (.bool true) entries
                  let e3 := match rest with
                    | f :: _ => assocSet "auth_file".data (.str f) e2
                    | [] => e2
                  .ok { st with auth := .dict e3 }
              | .str _ => .error "str does not support item assignment"
            else .ok st

structure OpenvpnResult where
  remote : List (List Char × Int × List Char)
  proto : Option (List Char)
  dev : Option (List Char)
  cipher : Option (List Char)
  auth : OvpnAuth
  inline_keys : List (List Char × List Char)

def parse_openvpn (data : List Char) : Except String OpenvpnResult :=
  ((pySplitAll '\n' data).foldlM ovpnLine
    ⟨[], none, none, none, .dict [], [], none, []⟩).map
    (fun st => ⟨st.remote, st.proto, st.dev, st.cipher, st.auth,
      st.inline_keys⟩)

/-! ## The merged parse result and the top-level `parse` -/

/-- The sub-dict merged into the result by `result.update(parsed)`,
one variant per decoder outcome. -/
inductive Payload where
  | wg (r : WGResult)
  | openvpn (r : OpenvpnResult)
  | xrayBase
  | vless (r : VlessResult)
  | vmess (r : VmessResult)
  | vmessErr (msg : String)
  | trojanUrl (r : TrojanResult)
  | trojanJson (config : JValue)
  | trojanErr
  | xrayJson (r : XrayJsonResult)
  | shadowsocks (r : SSResult)
  | singbox (r : SingboxResult)
  | hysteria2 (r : Hy2Result)
  | tor (settings : List (List Char × List Char))
  | dpi (protocol : List Char) (settings : List (List Char × JValue))
  | generic (r : GenericResult)

/-- `_parse_vmess_url`: every failure inside is caught locally and turned
into an error dict (with `parsed` left to become True by the caller). -/
def parse_vmess_url (L : Libs) (url : List Char) : Payload :=
  let b64part := url.drop 8
  let padded :=
    b64part ++ List.replicate ((4 - b64part.length % 4) % 4) '='
  match b64decode padded with
  | none => .vmessErr "invalid base64-encoded string"
  | some bytes =>
      match utf8Decode bytes with
      | none => .vmessErr "utf-8 codec cannot decode"
      | some jsonStr =>
          match L.jsonLoads jsonStr with
          | .error e => .vmessErr e
          | .ok (.obj fields) =>
              match pyIntOfJ ((assocGet "port".data fields).getD
                  (.num 443)) with
              | .error e => .vmessErr e
              | .ok port =>
                  match pyIntOfJ ((assocGet "aid".data fields).getD
                      (.num 0)) with
                  | .error e => .vmessErr e
                  | .ok aid =>
                      let network := (assocGet "net".data fields).getD
                        (.str "tcp".data)
                      .vmess
                        { uuid := (assocGet "id".data fields).getD (.str [])
                          server :=
                            (assocGet "add".data fields).getD (.str [])
                          port := port
                          aid := aid
                          network := network
                          security := (assocGet "tls".data fields).getD
                            (.str "none".data)
                          ws :=
                            if (assocGet "path".data fields).isSome ∧
                                jEqStr network "ws".data then
                              some ((assocGet "path".data fields).getD .null,
                                (assocGet "host".data fields).getD (.str []))
                            else none }
          | .ok _ => .vmessErr "object has no attribute get"

/-- URL-dispatch part of `_parse_xray` (after the JSON branch falls
through). -/
def xrayUrlDispatch (L : Libs) (data : List Char) :
    Except String Payload :=
  if ("vless://".data).isPrefixOf data then
    (parse_vless_url L data).map .vless
  else if ("vmess://".data).isPrefixOf data then
    .ok (parse_vmess_url L data)
  else if ("trojan://".data).isPrefixOf data then
    (parse_trojan_url L data).map .trojanUrl
  else .ok .xrayBase

/-- `_parse_xray`. -/
def parse_xray (L : Libs) (data : List Char) : Except String Payload :=
  if headIs lbrace (pyStrip data) then
    match L.jsonLoads data with
    | .ok j =>
        match parse_xray_json j with
        | .ok r => .ok (.xrayJson r)
        | .error _ => xrayUrlDispatch L data
    | .error _ => xrayUrlDispatch L data
  else xrayUrlDispatch L data

/-- `_parse_trojan`. -/
def parse_trojan (L : Libs) (data : List Char) : Except String Payload :=
  if ("trojan://".data).isPrefixOf data then
    (parse_trojan_url L data).map .trojanUrl
  else
    match L.jsonLoads data with
    | .ok j => .ok (.trojanJson j)
    | .error _ => .ok .trojanErr

def supported_protocols : List (List Char) :=
  ["wireguard".data, "amneziawg".data, "openvpn".data, "xray".data,
   "shadowsocks".data, "trojan".data, "sing-box".data, "hysteria2".data,
   "tor".data, "zapret".data, "byedpi".data, "goodbyedpi".data]

/-- `"interface" in config and config.get("interface")` truthiness for
`_validate_config`. -/
def pIfaceOk : Payload → Bool
  | .wg r => !r.interface.isEmpty
  | _ => false

def pPeersOk : Payload → Bool
  | .wg r => !r.peers.isEmpty
  | _ => false

def pRemoteOk : Payload → Bool
  | .openvpn r => !r.remote.isEmpty
  | _ => false

def pServerOk : Payload → Bool
  | .vless r => !r.server.isEmpty
  | .vmess r => jTruthy r.server
  | .trojanUrl r => !r.server.isEmpty
  | .shadowsocks r =>
      match r.server with
      | some s => !s.isEmpty
      | none => false
  | .hysteria2 r =>
      match r.server with
      | some s => !s.isEmpty
      | none => false
  | _ => false

def pPortPresent : Payload → Bool
  | .vless _ => true
  | .vmess _ => true
  | .trojanUrl _ => true
  | .shadowsocks _ => true
  | .hysteria2 r => r.port.isSome
  | _ => false

/-- `_validate_config`: warnings appended to the merged result (it never
raises and never touches `parsed`/`errors`). -/
def validate_warnings (protocol : List Char) (p : Payload) :
    List (List Char) :=
  if protocol = "wireguard".data ∨ protocol = "amneziawg".data then
    (if pIfaceOk p then [] else ["Отсутствует секция Interface".data]) ++
    (if pPeersOk p then [] else ["Отсутствуют пиры".data])
  else if protocol = "openvpn".data then
    if pRemoteOk p then [] else ["Отсутствует remote сервер".data]
  else if protocol = "xray".data ∨ protocol = "vless".data ∨
      protocol = "vmess".data ∨ protocol = "trojan".data then
    (if pServerOk p then [] else ["Отсутствует сервер".data]) ++
    (if pPortPresent p then [] else ["Отсутствует порт".data])
  else []

/-- The `"protocol"` key carried by the sub-dict, when present (it
overwrites the top-level protocol in `result.update(parsed)`); the inner
`Option` is the value, which `_parse_xray` initializes to `None`. -/
def payloadProtocol : Payload → Option (Option JValue)
  | .wg _ => none
  | .openvpn _ => none
  | .xrayBase => some none
  | .vless _ => some (some (.str "vless".data))
  | .vmess _ => some (some (.str "vmess".data))
  | .vmessErr _ => some (some (.str "vmess".data))
  | .trojanUrl _ => some (some (.str "trojan".data))
  | .trojanJson _ => some (some (.str "trojan".data))
  | .trojanErr => none
  | .xrayJson r => some (some r.protocol)
  | .shadowsocks _ => none
  | .singbox _ => some (some (.str "sing-box".data))
  | .hysteria2 _ => some (some (.str "hysteria2".data))
  | .tor _ => some (some (.str "tor".data))
  | .dpi p _ => some (some (.str p))
  | .generic _ => none

/-- Dispatch of `parse` to the selected decoder. -/
def runDecoder (L : Libs) (protocol data : List Char) :
    Except String Payload :=
  if protocol = "wireguard".data then .ok (.wg (parse_wireguard L data))
  else if protocol = "amneziawg".data then
    .ok (.wg (parse_amneziawg L data))
  else if protocol = "openvpn".data then (parse_openvpn data).map .openvpn
  else if protocol = "xray".data then parse_xray L data
  else if protocol = "shadowsocks".data then
    .ok (.shadowsocks (parse_shadowsocks L data))
  else if protocol = "trojan".data then parse_trojan L data
  else if protocol = "sing-box".data then
    .ok (.singbox (parse_singbox L data))
  else if protocol = "hysteria2".data then
    (parse_hysteria2 L data).map .hysteria2
  else if protocol = "tor".data then .ok (.tor (parse_tor data))
  else if protocol = "zapret".data ∨ protocol = "byedpi".data ∨
      protocol = "goodbyedpi".data then
    .ok (.dpi protocol (parse_dpi_bypass data))
  else .ok (.generic (parse_generic L data))

/-- The observable result of `parse` (timestamp and the constant
kvm-optimization annotations omitted). `protocol` is the final value of
the `"protocol"` key after the merge, `payload` the merged decoder
fields (absent when the decoder raised). -/
structure ParseResult where
  protocol : Option JValue
  auto_detected : Bool
  parsed : Bool
  warnings : List (List Char)
  errors : List String
  payload : Option Payload

/-- `KVMProtocolParser.parse` (lines 40-108). -/
def parse (L : Libs) (protocol0 data : List Char) : ParseResult :=
  let auto := protocol0 = "auto".data ∨ protocol0 = []
  let protocol := if auto then detect_protocol L data else protocol0
  let warn0 : List (List Char) :=
    if protocol ∈ supported_protocols then []
    else ["Протокол ".data ++ protocol ++ " может не поддерживаться".data]
  match runDecoder L protocol data with
  | .ok payload =>
      { protocol := match payloadProtocol payload with
          | some v => v
          | none => some (.str protocol)
        auto_detected := auto
        parsed := true
        warnings := warn0 ++ validate_warnings protocol payload
        errors := []
        payload := some payload }
  | .error e =>
      { protocol := some (.str protocol)
        auto_detected := auto
        parsed := false
        warnings := warn0
        errors := [e]
        payload := none }

/-! ## Schematic INI inputs (used to quantify over WireGuard configs) -/

/-- A `key=value` line. -/
def kvLine (kv : List Char × List Char) : List Char := kv.1 ++ '=' :: kv.2

def iniLines (kvs : List (List Char × List Char)) : List (List Char) :=
  kvs.map kvLine

/-- The dict a section body folds to: lower-cased keys, last write wins,
insertion ordered. -/
def iniDict (kvs : List (List Char × List Char))
    (acc : List (List Char × List Char)) : List (List Char × List Char) :=
  kvs.foldl (fun a kv => assocSet (pyLower kv.1) kv.2 a) acc

/-- Well-formedness of a schematic `key=value` pair: nonempty key of
non-whitespace characters without '=' or newline, not opening a comment or
a section header; a value that carries no newline and no leading/trailing
whitespace (so it is strip-invariant). -/
def GoodKV (kv : List Char × List Char) : Prop :=
  kv.1 ≠ [] ∧ (∀ c ∈ kv.1, pyWs c = false ∧ c ≠ '=' ∧ c ≠ '\n') ∧
  headIs '#' kv.1 = false ∧ headIs '[' kv.1 = false ∧
  (∀ c, kv.2.head? = some c → pyWs c = false) ∧
  (∀ c, kv.2.getLast? = some c → pyWs c = false) ∧ '\n' ∉ kv.2

/-- A concrete `Libs` instance used by the closed witness and
counterexample statements (the inputs they evaluate never reach the
library calls, or reach ones whose result is irrelevant). -/
def stubLibs : Libs :=
  { jsonLoads := fun _ => .error "invalid json"
    urlparse := fun _ =>
      { username := none, hostname := none, port := .ok none,
        query := [], fragment := [] }
    parseQs := fun _ => []
    findIps := fun _ => []
    findPorts := fun _ => []
    findKeys := fun _ => [] }

/-! ## Helper lemmas -/

theorem assocGet_set_self {κ α : Type} [DecidableEq κ] (k : κ) (v : α)
    (l : List (κ × α)) : assocGet k (assocSet k v l) = some v := by
  induction l with
  | nil => simp [assocSet, assocGet]
  | cons hd tl ih =>
      obtain ⟨k2, v2⟩ := hd
      by_cases h : k2 = k
      · simp [assocSet, assocGet, h]
      · simp [assocSet, assocGet, h, ih]

theorem assocGet_set_other {κ α : Type} [DecidableEq κ] (k k2 : κ) (v : α)
    (l : List (κ × α)) (h : k2 ≠ k) :
    assocGet k2 (assocSet k v l) = assocGet k2 l := by
  induction l with
  | nil => simp [assocSet, assocGet, Ne.symm h]
  | cons hd tl ih =>
      obtain ⟨k3, v3⟩ := hd
      by_cases h3 : k3 = k
      · subst h3
        simp [assocSet, assocGet, h, Ne.symm h]
      · by_cases h4 : k3 = k2
        · subst h4
          simp [assocSet, assocGet, h3, h]
        · simp [assocSet, assocGet, h3, h4, ih]

theorem assocGet_map {κ α β : Type} [DecidableEq κ] (k : κ) (f : α → β)
    (l : List (κ × α)) :
    assocGet k (l.map (fun p => (p.1, f p.2))) = (assocGet k l).map f := by
  induction l with
  | nil => simp [assocGet]
  | cons hd tl ih =>
      obtain ⟨k2, v2⟩ := hd
      by_cases h : k2 = k <;> simp [assocGet, h, ih]

/-- Two incomparable lists stay non-prefixes after extending the
candidate on the right. -/
theorem not_prefix_append (p a q : List Char) (h1 : ¬ a <+: p)
    (h2 : ¬ p <+: a) : ¬ p <+: (a ++ q) := fun h =>
  (List.prefix_or_prefix_of_prefix h (List.prefix_append a q)).elim h2 h1

theorem dropWhile_append_eval (f : Char → Bool) (a b : List Char) :
    (a ++ b).dropWhile f =
      if (a.dropWhile f).isEmpty then b.dropWhile f
      else a.dropWhile f ++ b := by
  induction a with
  | nil => simp
  | cons c a' ih =>
      by_cases h : f c = true
      · simpa [List.dropWhile_cons, h] using ih
      · simp [List.dropWhile_cons, h]

/-- Stripping a string that begins with a strip-invariant nonempty prefix
keeps that prefix. -/
theorem pyStrip_append_prefix (p r : List Char) (hne : p ≠ [])
    (h1 : lstrip p = p) (h2 : rstrip p = p) :
    ∃ q, pyStrip (p ++ r) = p ++ q := by
  have hlr : lstrip (p ++ r) = p ++ r := by
    unfold lstrip at h1 ⊢
    rw [dropWhile_append_eval, h1]
    have : p.isEmpty = false := by
      cases p with
      | nil => exact absurd rfl hne
      | cons c p' => rfl
    simp [this]
  have hrev : rstrip p = p → (p.reverse.dropWhile pyWs) = p.reverse := by
    intro h
    unfold rstrip at h
    have := congrArg List.reverse h
    simpa using this
  unfold pyStrip
  rw [hlr]
  unfold rstrip
  rw [List.reverse_append, dropWhile_append_eval]
  by_cases hre : (r.reverse.dropWhile pyWs).isEmpty = true
  · refine ⟨[], ?_⟩
    simp only [hre, if_true, hrev h2]
    simp
  · refine ⟨(r.reverse.dropWhile pyWs).reverse, ?_⟩
    simp only [hre, if_false]
    simp [hre]

theorem dropWhile_all_false (f : Char → Bool) (l : List Char)
    (h : ∀ c ∈ l, f c = false) : l.dropWhile f = l := by
  induction l with
  | nil => rfl
  | cons c l' ih =>
      have hc := h c (List.mem_cons_self c l')
      simp [List.dropWhile_cons, hc]

theorem pyStrip_all_nonws (l : List Char)
    (h : ∀ c ∈ l, pyWs c = false) : pyStrip l = l := by
  unfold pyStrip lstrip rstrip
  rw [dropWhile_all_false pyWs l h]
  rw [dropWhile_all_false pyWs l.reverse (fun c hc => h c (by simpa using hc))]
  simp

theorem pySplitAll_no_sep (sep : Char) (l : List Char) (h : sep ∉ l) :
    pySplitAll sep l = [l] := by
  induction l with
  | nil => rfl
  | cons c l' ih =>
      have hc : c ≠ sep := fun hcc => h (hcc ▸ List.mem_cons_self c l')
      have h' : sep ∉ l' := fun hm => h (List.mem_cons_of_mem c hm)
      simp [pySplitAll, ih h', hc]

theorem pySplitAll_ne_nil (sep : Char) (l : List Char) :
    pySplitAll sep l ≠ [] := by
  induction l with
  | nil => simp [pySplitAll]
  | cons c l' ih =>
      simp only [pySplitAll]
      cases h : pySplitAll sep l' with
      | nil => simp
      | cons cur parts => by_cases hc : c = sep <;> simp [hc]

theorem pySplitAll_append_sep (sep : Char) (a b : List Char)
    (h : sep ∉ a) : pySplitAll sep (a ++ sep :: b) = a :: pySplitAll sep b := by
  induction a with
  | nil =>
      cases hsp : pySplitAll sep b with
      | nil => exact absurd hsp (pySplitAll_ne_nil sep b)
      | cons cur parts => simp [pySplitAll, hsp]
  | cons c a' ih =>
      have hc : c ≠ sep := fun hcc => h (hcc ▸ List.mem_cons_self c a')
      have h' : sep ∉ a' := fun hm => h (List.mem_cons_of_mem c hm)
      rw [List.cons_append]
      simp only [pySplitAll, ih h']
      simp [hc]

theorem pySplitAll_joinNl : ∀ (lines : List (List Char)),
    (∀ l ∈ lines, '\n' ∉ l) → lines ≠ [] →
    pySplitAll '\n' (joinNl lines) = lines
  | [], _, hne => absurd rfl hne
  | [l], h, _ => by
      simpa [joinNl] using
        pySplitAll_no_sep '\n' l (h l (List.mem_cons_self l []))
  | l :: l2 :: rest, h, _ => by
      have h1 : '\n' ∉ l := h l (List.mem_cons_self l (l2 :: rest))
      have h2 : ∀ x ∈ l2 :: rest, '\n' ∉ x :=
        fun x hx => h x (List.mem_cons_of_mem l hx)
      show pySplitAll '\n' (l ++ '\n' :: joinNl (l2 :: rest)) = _
      rw [pySplitAll_append_sep '\n' l _ h1]
      rw [pySplitAll_joinNl (l2 :: rest) h2 (by simp)]

theorem pySplitFirst_eq (k v : List Char) (hk : '=' ∉ k) :
    pySplitFirst '=' (k ++ '=' :: v) = some (k, v) := by
  induction k with
  | nil => simp [pySplitFirst]
  | cons c k' ih =>
      have hc : c ≠ '=' := fun hcc => hk (hcc ▸ List.mem_cons_self c k')
      have h' : '=' ∉ k' := fun hm => hk (List.mem_cons_of_mem c hm)
      rw [List.cons_append]
      simp [pySplitFirst, hc, ih h']

theorem hasInfix_singleton_of_mem (c : Char) (l : List Char)
    (h : c ∈ l) : hasInfix [c] l = true := by
  induction l with
  | nil => simp at h
  | cons d l' ih =>
      rcases List.mem_cons.mp h with h | h
      · subst h
        simp [hasInfix, List.isPrefixOf]
      · simp [hasInfix, ih h]

theorem lstrip_eq_self_of_head (v : List Char)
    (h : ∀ c, v.head? = some c → pyWs c = false) : lstrip v = v := by
  cases v with
  | nil => rfl
  | cons a v' =>
      have ha := h a rfl
      simp [lstrip, List.dropWhile_cons, ha]

theorem rstrip_eq_self_of_getLast (v : List Char)
    (h : ∀ c, v.getLast? = some c → pyWs c = false) : rstrip v = v := by
  unfold rstrip
  cases hv : v.reverse with
  | nil =>
      have : v = [] := List.reverse_eq_nil_iff.mp hv
      simp [this]
  | cons a r' =>
      have ha : v.getLast? = some a := by
        rw [← List.head?_reverse, hv]; rfl
      have := h a ha
      rw [List.dropWhile_cons]
      simp only [this, Bool.false_eq_true, if_false]
      rw [← hv]
      simp

theorem pyStrip_good_value (v : List Char)
    (hh : ∀ c, v.head? = some c → pyWs c = false)
    (hl : ∀ c, v.getLast? = some c → pyWs c = false) : pyStrip v = v := by
  unfold pyStrip
  rw [lstrip_eq_self_of_head v hh, rstrip_eq_self_of_getLast v hl]

theorem pyStrip_kvLine (k v : List Char)
    (hk : ∀ c ∈ k, pyWs c = false) (hkne : k ≠ [])
    (hl : ∀ c, v.getLast? = some c → pyWs c = false) :
    pyStrip (k ++ '=' :: v) = k ++ '=' :: v := by
  unfold pyStrip
  have hlstrip : lstrip (k ++ '=' :: v) = k ++ '=' :: v := by
    cases k with
    | nil => exact absurd rfl hkne
    | cons c k' =>
        have hc := hk c (List.mem_cons_self c k')
        simp [lstrip, List.dropWhile_cons, hc]
  rw [hlstrip]
  apply rstrip_eq_self_of_getLast
  intro c hc
  rw [List.getLast?_append_of_ne_nil _ (by simp : ('=' :: v) ≠ [])] at hc
  cases hvv : v with
  | nil =>
      subst hvv
      cases hc
      decide
  | cons a v' =>
      subst hvv
      rw [show ('=' :: a :: v') = ['='] ++ (a :: v') from rfl] at hc
      rw [List.getLast?_append_of_ne_nil _ (by simp : (a :: v') ≠ [])] at hc
      exact hl c hc

theorem kvLine_no_newline (kv : List Char × List Char) (g : GoodKV kv) :
    '\n' ∉ kvLine kv := by
  obtain ⟨_, hk, _, _, _, _, hvnl⟩ := g
  intro hm
  simp only [kvLine, List.mem_append, List.mem_cons] at hm
  rcases hm with hm | hm | hm
  · exact ((hk _ hm).2.2) rfl
  · exact absurd hm (by decide)
  · exact hvnl hm

/-- A schematic key=value line is consumed by the INI loop as a single
dict write into the current section (or dropped outside Interface/Peer). -/
theorem kvLine_eval (st : WGState) (k v : List Char)
    (good : GoodKV (k, v)) :
    wgLine st (kvLine (k, v)) =
      (if st.cur_section = some "Interface".data then
        { st with iface := assocSet (pyLower k) v st.iface }
      else if st.cur_section = some "Peer".data then
        { st with curPeer := assocSet (pyLower k) v st.curPeer }
      else st) := by
  obtain ⟨hkne, hk, hhash, hbrack, hvh, hvl, hvnl⟩ := good
  cases k with
  | nil => exact absurd rfl hkne
  | cons a ks =>
      have hstrip : pyStrip ((a :: ks) ++ '=' :: v) = (a :: ks) ++ '=' :: v :=
        pyStrip_kvLine (a :: ks) v (fun c hc => (hk c hc).1) (by simp) hvl
      have hsplit : pySplitFirst '=' ((a :: ks) ++ '=' :: v) =
          some (a :: ks, v) :=
        pySplitFirst_eq (a :: ks) v (fun hm => ((hk '=' hm).2.1) rfl)
      have hinf : hasInfix ['='] ((a :: ks) ++ '=' :: v) = true :=
        hasInfix_singleton_of_mem '=' _ (by simp)
      have hkstrip : pyStrip (a :: ks) = a :: ks :=
        pyStrip_all_nonws _ (fun c hc => (hk c hc).1)
      have hvstrip : pyStrip v = v := pyStrip_good_value v hvh hvl
      simp only [headIs] at hhash hbrack
      rw [List.cons_append] at hstrip hsplit hinf
      simp only [wgLine, kvLine, List.cons_append]
      rw [hstrip]
      simp only [List.isEmpty_cons, headIs, hhash, hbrack, Bool.false_or,
        Bool.false_and, Bool.false_eq_true, if_false, hinf, if_true,
        hsplit, hkstrip, hvstrip]

theorem wgLine_interface_header (st : WGState) :
    wgLine st "[Interface]".data =
      { st with cur_section := some "Interface".data } := rfl

theorem wgLine_peer_header (st : WGState) :
    wgLine st "[Peer]".data =
      if st.curPeer.isEmpty then
        { st with cur_section := some "Peer".data, curPeer := [] }
      else
        { st with
          cur_section := some "Peer".data
          curPeer := []
          peers := st.peers ++ [st.curPeer] } := rfl

theorem wgLine_peer_header_empty (st : WGState)
    (h : st.curPeer.isEmpty = true) :
    wgLine st "[Peer]".data =
      { st with cur_section := some "Peer".data, curPeer := [] } := by
  rw [wgLine_peer_header, if_pos h]

theorem wgLine_peer_header_flush (st : WGState)
    (h : st.curPeer.isEmpty = false) :
    wgLine st "[Peer]".data =
      { st with
        cur_section := some "Peer".data
        curPeer := []
        peers := st.peers ++ [st.curPeer] } := by
  rw [wgLine_peer_header, if_neg (by simp [h])]

theorem foldl_iniLines_dropped :
    ∀ (kvs : List (List Char × List Char)) (st : WGState),
    (∀ kv ∈ kvs, GoodKV kv) → st.cur_section = none →
    (iniLines kvs).foldl wgLine st = st := by
  intro kvs
  induction kvs with
  | nil => intro st _ _; rfl
  | cons kv rest ih =>
      intro st hgood hsec
      obtain ⟨k, v⟩ := kv
      rw [show iniLines ((k, v) :: rest) = kvLine (k, v) :: iniLines rest
        from rfl, List.foldl_cons]
      rw [kvLine_eval st k v (hgood (k, v) (List.mem_cons_self _ _))]
      rw [if_neg (by simp [hsec]), if_neg (by simp [hsec])]
      exact ih st (fun kv2 hm => hgood kv2 (List.mem_cons_of_mem _ hm)) hsec

theorem foldl_iniLines_iface :
    ∀ (kvs : List (List Char × List Char)) (st : WGState),
    (∀ kv ∈ kvs, GoodKV kv) → st.cur_section = some "Interface".data →
    (iniLines kvs).foldl wgLine st =
      { st with iface := iniDict kvs st.iface } := by
  intro kvs
  induction kvs with
  | nil => intro st _ _; rfl
  | cons kv rest ih =>
      intro st hgood hsec
      obtain ⟨k, v⟩ := kv
      rw [show iniLines ((k, v) :: rest) = kvLine (k, v) :: iniLines rest
        from rfl, List.foldl_cons]
      rw [kvLine_eval st k v (hgood (k, v) (List.mem_cons_self _ _))]
      rw [if_pos hsec]
      rw [ih { st with iface := assocSet (pyLower k) v st.iface }
        (fun kv2 hm => hgood kv2 (List.mem_cons_of_mem _ hm)) hsec]
      rfl

theorem foldl_iniLines_peer :
    ∀ (kvs : List (List Char × List Char)) (st : WGState),
    (∀ kv ∈ kvs, GoodKV kv) → st.cur_section = some "Peer".data →
    (iniLines kvs).foldl wgLine st =
      { st with curPeer := iniDict kvs st.curPeer } := by
  intro kvs
  induction kvs with
  | nil => intro st _ _; rfl
  | cons kv rest ih =>
      intro st hgood hsec
      obtain ⟨k, v⟩ := kv
      rw [show iniLines ((k, v) :: rest) = kvLine (k, v) :: iniLines rest
        from rfl, List.foldl_cons]
      rw [kvLine_eval st k v (hgood (k, v) (List.mem_cons_self _ _))]
      rw [if_neg (by simp [hsec]), if_pos hsec]
      rw [ih { st with curPeer := assocSet (pyLower k) v st.curPeer }
        (fun kv2 hm => hgood kv2 (List.mem_cons_of_mem _ hm)) hsec]
      rfl

theorem assocSet_ne_nil {κ α : Type} [DecidableEq κ] (k : κ) (v : α)
    (l : List (κ × α)) : assocSet k v l ≠ [] := by
  cases l with
  | nil => simp [assocSet]
  | cons hd tl =>
      obtain ⟨k2, v2⟩ := hd
      by_cases h : k2 = k <;> simp [assocSet, h]

theorem iniDict_cons (kv : List Char × List Char)
    (rest : List (List Char × List Char))
    (acc : List (List Char × List Char)) :
    iniDict (kv :: rest) acc =
      iniDict rest (assocSet (pyLower kv.1) kv.2 acc) := rfl

theorem iniDict_ne_nil : ∀ (kvs : List (List Char × List Char))
    (acc : List (List Char × List Char)), kvs ≠ [] →
    iniDict kvs acc ≠ []
  | [], _, h => absurd rfl h
  | kv :: rest, acc, _ => by
      rw [iniDict_cons]
      cases hr : rest with
      | nil =>
          subst hr
          simpa [iniDict] using assocSet_ne_nil (pyLower kv.1) kv.2 acc
      | cons r rs =>
          subst hr
          exact iniDict_ne_nil (r :: rs) _ (by simp)

theorem isPrefixOf_append_self (p q : List Char) :
    p.isPrefixOf (p ++ q) = true := by
  induction p with
  | nil => simp [List.isPrefixOf]
  | cons c p2 ih => simp [List.isPrefixOf, ih]

theorem pySplitFirst_append (sep : Char) (a b : List Char) (h : sep ∉ a) :
    pySplitFirst sep (a ++ sep :: b) = some (a, b) := by
  induction a with
  | nil => simp [pySplitFirst]
  | cons c a2 ih =>
      have hc : c ≠ sep := fun hcc => h (hcc ▸ List.mem_cons_self c a2)
      have h2 : sep ∉ a2 := fun hm => h (List.mem_cons_of_mem c hm)
      rw [List.cons_append]
      simp [pySplitFirst, hc, ih h2]

theorem pySplitFirst_none (sep : Char) (l : List Char) (h : sep ∉ l) :
    pySplitFirst sep l = none := by
  induction l with
  | nil => rfl
  | cons c l2 ih =>
      have hc : c ≠ sep := fun hcc => h (hcc ▸ List.mem_cons_self c l2)
      have h2 : sep ∉ l2 := fun hm => h (List.mem_cons_of_mem c hm)
      simp [pySplitFirst, hc, ih h2]

/-! ### Base64 / UTF-8 / decimal round trips -/

theorem decodeB64Char_encode : ∀ k, k < 64 →
    decodeB64Char (encodeB64Char k) = some k := by decide

theorem encodeB64Char_valid : ∀ k, k < 64 →
    (isB64Char (encodeB64Char k) || encodeB64Char k == '=') = true := by
  decide

theorem encodeB64Char_ne_pad : ∀ k, k < 64 →
    (encodeB64Char k != '=') = true := by decide

theorem b64encode_chars : ∀ (bs : List Nat), (∀ b ∈ bs, b < 256) →
    ∀ c ∈ b64encode bs, (isB64Char c || c == '=') = true
  | [], _, c, hc => by simp [b64encode] at hc
  | [b1], h, c, hc => by
      have hb1 : b1 < 256 := h b1 (by simp)
      simp only [b64encode, List.mem_cons, List.not_mem_nil,
        or_false] at hc
      rcases hc with rfl | rfl | rfl | rfl
      · exact encodeB64Char_valid _ (by omega)
      · exact encodeB64Char_valid _ (by omega)
      · decide
      · decide
  | [b1, b2], h, c, hc => by
      have hb1 : b1 < 256 := h b1 (by simp)
      have hb2 : b2 < 256 := h b2 (by simp)
      simp only [b64encode, List.mem_cons, List.not_mem_nil,
        or_false] at hc
      rcases hc with rfl | rfl | rfl | rfl
      · exact encodeB64Char_valid _ (by omega)
      · exact encodeB64Char_valid _ (by omega)
      · exact encodeB64Char_valid _ (by omega)
      · decide
  | b1 :: b2 :: b3 :: rest, h, c, hc => by
      have hb1 : b1 < 256 := h b1 (by simp)
      have hb2 : b2 < 256 := h b2 (by simp)
      have hb3 : b3 < 256 := h b3 (by simp)
      simp only [b64encode, List.mem_cons] at hc
      rcases hc with rfl | rfl | rfl | rfl | hc
      · exact encodeB64Char_valid _ (by omega)
      · exact encodeB64Char_valid _ (by omega)
      · exact encodeB64Char_valid _ (by omega)
      · exact encodeB64Char_valid _ (by omega)
      · exact b64encode_chars rest
          (fun b hb => h b (by simp [hb])) c hc

theorem b64encode_len : ∀ (bs : List Nat),
    (b64encode bs).length % 4 = 0
  | [] => rfl
  | [_] => by simp [b64encode]
  | [_, _] => by simp [b64encode]
  | b1 :: b2 :: b3 :: rest => by
      have := b64encode_len rest
      simp only [b64encode, List.length_cons]
      omega

theorem b64Groups_encode : ∀ (bs : List Nat), (∀ b ∈ bs, b < 256) →
    b64Groups (((b64encode bs).takeWhile
      (fun c => c != '=')).filterMap decodeB64Char) = some bs
  | [], _ => rfl
  | [b1], h => by
      have hb1 : b1 < 256 := h b1 (by simp)
      have k1 : b1 / 4 < 64 := by omega
      have k2 : (b1 % 4) * 16 < 64 := by omega
      simp only [b64encode, List.takeWhile_cons,
        encodeB64Char_ne_pad _ k1, encodeB64Char_ne_pad _ k2]
      simp only [show (('=' : Char) != '=') = false from rfl,
        Bool.false_eq_true, if_false, if_true, List.filterMap_cons,
        decodeB64Char_encode _ k1, decodeB64Char_encode _ k2,
        List.filterMap_nil, b64Groups]
      have : b1 / 4 * 4 + (b1 % 4) * 16 / 16 = b1 := by omega
      rw [this]
  | [b1, b2], h => by
      have hb1 : b1 < 256 := h b1 (by simp)
      have hb2 : b2 < 256 := h b2 (by simp)
      have k1 : b1 / 4 < 64 := by omega
      have k2 : (b1 % 4) * 16 + b2 / 16 < 64 := by omega
      have k3 : (b2 % 16) * 4 < 64 := by omega
      simp only [b64encode, List.takeWhile_cons,
        encodeB64Char_ne_pad _ k1, encodeB64Char_ne_pad _ k2,
        encodeB64Char_ne_pad _ k3]
      simp only [show (('=' : Char) != '=') = false from rfl,
        Bool.false_eq_true, if_false, if_true, List.filterMap_cons,
        decodeB64Char_encode _ k1, decodeB64Char_encode _ k2,
        decodeB64Char_encode _ k3, List.filterMap_nil, b64Groups]
      have e1 : b1 / 4 * 4 + ((b1 % 4) * 16 + b2 / 16) / 16 = b1 := by
        omega
      have e2 : ((b1 % 4) * 16 + b2 / 16) % 16 * 16 +
          (b2 % 16) * 4 / 4 = b2 := by omega
      rw [e1, e2]
  | b1 :: b2 :: b3 :: rest, h => by
      have hb1 : b1 < 256 := h b1 (by simp)
      have hb2 : b2 < 256 := h b2 (by simp)
      have hb3 : b3 < 256 := h b3 (by simp)
      have k1 : b1 / 4 < 64 := by omega
      have k2 : (b1 % 4) * 16 + b2 / 16 < 64 := by omega
      have k3 : (b2 % 16) * 4 + b3 / 64 < 64 := by omega
      have k4 : b3 % 64 < 64 := by omega
      have ih := b64Groups_encode rest (fun b hb => h b (by simp [hb]))
      simp only [b64encode, List.takeWhile_cons,
        encodeB64Char_ne_pad _ k1, encodeB64Char_ne_pad _ k2,
        encodeB64Char_ne_pad _ k3, encodeB64Char_ne_pad _ k4, if_true,
        List.filterMap_cons, decodeB64Char_encode _ k1,
        decodeB64Char_encode _ k2, decodeB64Char_encode _ k3,
        decodeB64Char_encode _ k4, b64Groups, ih, Option.map_some]
      have e1 : b1 / 4 * 4 + ((b1 % 4) * 16 + b2 / 16) / 16 = b1 := by
        omega
      have e2 : ((b1 % 4) * 16 + b2 / 16) % 16 * 16 +
          ((b2 % 16) * 4 + b3 / 64) / 4 = b2 := by omega
      have e3 : ((b2 % 16) * 4 + b3 / 64) % 4 * 64 + b3 % 64 = b3 := by
        omega
      rw [e1, e2, e3]
      rfl

theorem b64decode_encode (bs : List Nat) (h : ∀ b ∈ bs, b < 256) :
    b64decode (b64encode bs) = some bs := by
  have hfilter : (b64encode bs).filter
      (fun c => isB64Char c || c == '=') = b64encode bs :=
    List.filter_eq_self.mpr (fun c hc => b64encode_chars bs h c hc)
  have hlen := b64encode_len bs
  simp only [b64decode, hfilter]
  rw [if_neg (by omega : ¬ (b64encode bs).length % 4 ≠ 0)]
  exact b64Groups_encode bs h

theorem utf8Encode_ascii_bytes (s : List Char)
    (h : ∀ c ∈ s, c.toNat < 128) : ∀ b ∈ utf8Encode s, b < 256 := by
  induction s with
  | nil => simp [utf8Encode]
  | cons c rest ih =>
      intro b hb
      have hc := h c (List.mem_cons_self c rest)
      simp only [utf8Encode, utf8EncodeChar, hc, if_pos,
        List.singleton_append, List.mem_cons] at hb
      rcases hb with rfl | hb
      · omega
      · exact ih (fun x hx => h x (List.mem_cons_of_mem c hx)) b hb

theorem utf8EncodeChar_ascii (c : Char) (hc : c.toNat < 128) :
    utf8EncodeChar c = [c.toNat] := by
  unfold utf8EncodeChar
  simp only [hc, if_true]

theorem utf8Encode_cons_ascii (c : Char) (rest : List Char)
    (hc : c.toNat < 128) :
    utf8Encode (c :: rest) = c.toNat :: utf8Encode rest := by
  show utf8EncodeChar c ++ utf8Encode rest = _
  rw [utf8EncodeChar_ascii c hc]
  rfl

theorem utf8DecodeGo_nil (fuel : Nat) : utf8DecodeGo fuel [] = some [] := by
  cases fuel <;> rfl

theorem utf8DecodeGo_cons_ascii (fuel b : Nat) (rest : List Nat)
    (hb : b < 128) :
    utf8DecodeGo (fuel + 1) (b :: rest) =
      (utf8DecodeGo fuel rest).map (fun cs => Char.ofNat b :: cs) := by
  show (if b < 128 then
      (utf8DecodeGo fuel rest).map (fun cs => Char.ofNat b :: cs)
    else _) = _
  rw [if_pos hb]

theorem utf8DecodeGo_encode_ascii (s : List Char) : ∀ fuel : Nat,
    (∀ c ∈ s, c.toNat < 128) → s.length ≤ fuel →
    utf8DecodeGo fuel (utf8Encode s) = some s := by
  induction s with
  | nil =>
      intro fuel _ _
      exact utf8DecodeGo_nil fuel
  | cons c rest ih =>
      intro fuel h hlen
      have hc := h c (List.mem_cons_self c rest)
      cases fuel with
      | zero => simp at hlen
      | succ f =>
          rw [utf8Encode_cons_ascii c rest hc]
          rw [utf8DecodeGo_cons_ascii f c.toNat (utf8Encode rest) hc]
          rw [ih f (fun x hx => h x (List.mem_cons_of_mem c hx))
            (by simpa using Nat.succ_le_succ_iff.mp hlen)]
          simp [Char.ofNat_toNat]

theorem utf8EncodeChar_ne_nil (c : Char) : utf8EncodeChar c ≠ [] := by
  simp only [utf8EncodeChar]
  split_ifs <;> simp

theorem utf8Encode_length_ge (s : List Char) :
    s.length ≤ (utf8Encode s).length := by
  induction s with
  | nil => simp [utf8Encode]
  | cons c rest ih =>
      show _ ≤ (utf8EncodeChar c ++ utf8Encode rest).length
      have := utf8EncodeChar_ne_nil c
      have hpos : 1 ≤ (utf8EncodeChar c).length := by
        cases hcc : utf8EncodeChar c with
        | nil => exact absurd hcc this
        | cons x xs => simp
      simp only [List.length_cons, List.length_append]
      omega

theorem utf8Decode_encode_ascii (s : List Char)
    (h : ∀ c ∈ s, c.toNat < 128) : utf8Decode (utf8Encode s) = some s := by
  exact utf8DecodeGo_encode_ascii s (utf8Encode s).length h
    (utf8Encode_length_ge s)

theorem digitChar_toNat : ∀ d, d < 10 →
    (digitChar d).toNat = 48 + d := by decide

theorem digitChar_props : ∀ d, d < 10 →
    (digitChar d).isDigit = true ∧ pyWs (digitChar d) = false ∧
    digitChar d ≠ '-' ∧ digitChar d ≠ '+' ∧ digitChar d ≠ ':' ∧
    digitChar d ≠ '#' ∧ digitChar d ≠ '?' ∧ digitChar d ≠ '@' ∧
    digitChar d ≠ '\n' := by decide

theorem decimalString_mem (n : Nat) :
    ∀ c ∈ decimalString n, ∃ d, d < 10 ∧ c = digitChar d := by
  induction n using Nat.strong_induction_on with
  | _ n ih =>
      intro c hc
      rw [decimalString] at hc
      by_cases h10 : n < 10
      · simp only [h10, dif_pos, List.mem_singleton] at hc
        exact ⟨n, h10, hc⟩
      · simp only [h10, dif_neg, not_false_iff, List.mem_append,
          List.mem_singleton] at hc
        rcases hc with hc | rfl
        · exact ih (n / 10) (by omega) c hc
        · exact ⟨n % 10, by omega, rfl⟩

theorem decimalString_ne_nil (n : Nat) : decimalString n ≠ [] := by
  rw [decimalString]
  by_cases h10 : n < 10 <;> simp [h10]

theorem decimalString_foldl (n : Nat) : ∀ acc : Nat,
    (decimalString n).foldl (fun acc c => acc * 10 + (c.toNat - 48)) acc =
      acc * 10 ^ (decimalString n).length + n := by
  induction n using Nat.strong_induction_on with
  | _ n ih =>
      intro acc
      rw [decimalString]
      by_cases h10 : n < 10
      · simp only [h10, dif_pos, List.foldl_cons, List.foldl_nil,
          List.length_singleton, pow_one]
        rw [digitChar_toNat n h10]
        omega
      · simp only [h10, dif_neg, not_false_iff, List.foldl_append,
          List.foldl_cons, List.foldl_nil, List.length_append,
          List.length_singleton]
        rw [ih (n / 10) (by omega) acc]
        rw [digitChar_toNat (n % 10) (by omega)]
        rw [pow_succ]
        have hn : n / 10 * 10 + (48 + n % 10 - 48) = n := by omega
        set L := (decimalString (n / 10)).length
        ring_nf
        omega

theorem pyInt_decimal (n : Nat) : pyInt (decimalString n) = .ok n := by
  have hmem := decimalString_mem n
  have hstrip : pyStrip (decimalString n) = decimalString n := by
    apply pyStrip_all_nonws
    intro c hc
    obtain ⟨d, hd, rfl⟩ := hmem c hc
    exact (digitChar_props d hd).2.1
  have hdigits : (decimalString n).all Char.isDigit = true := by
    rw [List.all_eq_true]
    intro c hc
    obtain ⟨d, hd, rfl⟩ := hmem c hc
    exact (digitChar_props d hd).1
  obtain ⟨c0, cs, hcons⟩ :=
    List.exists_cons_of_ne_nil (decimalString_ne_nil n)
  have hc0mem : c0 ∈ decimalString n := by
    rw [hcons]
    exact List.mem_cons_self c0 cs
  obtain ⟨d0, hd0, hc0⟩ := hmem c0 hc0mem
  have hne1 : c0 ≠ '-' := hc0 ▸ (digitChar_props d0 hd0).2.2.1
  have hne2 : c0 ≠ '+' := hc0 ▸ (digitChar_props d0 hd0).2.2.2.1
  have hdigits2 : (c0 :: cs).all Char.isDigit = true := hcons ▸ hdigits
  simp only [pyInt]
  rw [hstrip, hcons]
  simp [hne1, hne2, hdigits2, Bool.false_eq_true]
  have hf := decimalString_foldl n 0
  rw [hcons] at hf
  simpa using hf

theorem b64encode_no_special (bs : List Nat) (hb : ∀ b ∈ bs, b < 256) :
    ∀ c ∈ b64encode bs, c ≠ ':' ∧ c ≠ '#' ∧ c ≠ '?' ∧ c ≠ '@' := by
  intro c hc
  have hv := b64encode_chars bs hb c hc
  refine ⟨?_, ?_, ?_, ?_⟩ <;> rintro rfl <;> revert hv <;> decide

theorem decimalString_no_special (n : Nat) :
    ∀ c ∈ decimalString n, c ≠ ':' ∧ c ≠ '#' ∧ c ≠ '?' ∧ c ≠ '@' := by
  intro c hc
  obtain ⟨d, hd, rfl⟩ := decimalString_mem n c hc
  have hp := digitChar_props d hd
  exact ⟨hp.2.2.2.2.1, hp.2.2.2.2.2.1, hp.2.2.2.2.2.2.1,
    hp.2.2.2.2.2.2.2.1⟩

/-! ## Theorems: service manager claims -/

/-- C10: `register_service(name, type, config)` always installs a fresh
record (status "stopped", no pid, no start_time, restart_count 0, no
last_error), silently replacing any existing record under the same name;
every other entry of the registry is untouched, and the operation involves
no process environment at all (it is a pure function of the registry). -/
theorem c10_register_fresh (m : Manager) (name serviceType : String)
    (config : List (String × String)) (other : String)
    (hother : other ≠ name) :
    assocGet name (register_service m name serviceType config).services =
      some (freshService name serviceType config) ∧
    (freshService name serviceType config).status = "stopped" ∧
    (freshService name serviceType config).pid = none ∧
    (freshService name serviceType config).start_time = none ∧
    (freshService name serviceType config).restart_count = 0 ∧
    (freshService name serviceType config).last_error = none ∧
    assocGet other (register_service m name serviceType config).services =
      assocGet other m.services ∧
    (register_service m name serviceType config).kvm = m.kvm := by
  refine ⟨?_, rfl, rfl, rfl, rfl, rfl, ?_, rfl⟩
  · exact assocGet_set_self name _ m.services
  · exact assocGet_set_other name other _ m.services hother

theorem c10_register_fresh_witness :
    assocGet "a" (register_service
        { kvm := ⟨4, 2048, 1024⟩
          services := [("a", { freshService "a" "tor" [] with
            status := "running", pid := some 9, restart_count := 2 })] }
        "a" "xray" [("k", "v")]).services =
      some (freshService "a" "xray" [("k", "v")]) ∧
    (freshService "a" "xray" [("k", "v")]).status = "stopped" ∧
    (freshService "a" "xray" [("k", "v")]).pid = none ∧
    (freshService "a" "xray" [("k", "v")]).start_time = none ∧
    (freshService "a" "xray" [("k", "v")]).restart_count = 0 ∧
    (freshService "a" "xray" [("k", "v")]).last_error = none ∧
    assocGet "b" (register_service
        { kvm := ⟨4, 2048, 1024⟩
          services := [("a", { freshService "a" "tor" [] with
            status := "running", pid := some 9, restart_count := 2 })] }
        "a" "xray" [("k", "v")]).services =
      assocGet "b"
        ([("a", { freshService "a" "tor" [] with
            status := "running", pid := some 9, restart_count := 2 })] :
          List (String × Service)) ∧
    (register_service
        { kvm := ⟨4, 2048, 1024⟩
          services := [("a", { freshService "a" "tor" [] with
            status := "running", pid := some 9, restart_count := 2 })] }
        "a" "xray" [("k", "v")]).kvm = (⟨4, 2048, 1024⟩ : KvmResources) :=
  c10_register_fresh _ "a" "xray" [("k", "v")] "b" (by decide)

/-- C4: `stop_service` is idempotent: for every registered service, as
long as signalling the recorded pid does not raise (vacuous when no pid is
recorded), two consecutive stops both return success and leave the record
with status "stopped" and pid / start_time cleared; in particular stopping
an already-stopped service (no recorded pid) is a no-op success. -/
theorem c4_stop_idempotent (env1 env2 : StopEnv) (m : Manager)
    (name : String) (svc : Service)
    (hget : assocGet name m.services = some svc)
    (hok : svc.pid = none ∨ env1.killRaise = none) :
    (stop_service env1 m name).2 = true ∧
    (stop_service env2 (stop_service env1 m name).1 name).2 = true ∧
    assocGet name
        (stop_service env2 (stop_service env1 m name).1 name).1.services =
      some { svc with status := "stopped", pid := none, start_time := none } := by
  have hstep1 : stop_service env1 m name =
      (setService m name
        { svc with status := "stopped", pid := none, start_time := none },
       true) := by
    rcases hok with hpid | hkill
    · simp [stop_service, hget, hpid]
    · simp only [stop_service, hget, hkill]
      cases svc.pid <;> rfl
  have hget2 : assocGet name (stop_service env1 m name).1.services =
      some { svc with status := "stopped", pid := none, start_time := none } := by
    rw [hstep1]
    exact assocGet_set_self name _ m.services
  have hstep2 : stop_service env2 (stop_service env1 m name).1 name =
      (setService (stop_service env1 m name).1 name
        { svc with status := "stopped", pid := none, start_time := none },
       true) := by
    generalize (stop_service env1 m name).1 = mStop at hget2 ⊢
    simp only [stop_service]
    rw [hget2]
  refine ⟨by rw [hstep1], by rw [hstep2], ?_⟩
  rw [hstep2]
  exact assocGet_set_self name _ _

theorem c4_stop_idempotent_witness :
    (stop_service ⟨none⟩
      { kvm := ⟨4, 2048, 1024⟩
        services := [("w", { freshService "w" "wireguard" [] with
          status := "running", pid := some 44, start_time := some 3 })] }
      "w").2 = true ∧
    (stop_service ⟨some "boom"⟩ (stop_service ⟨none⟩
      { kvm := ⟨4, 2048, 1024⟩
        services := [("w", { freshService "w" "wireguard" [] with
          status := "running", pid := some 44, start_time := some 3 })] }
      "w").1 "w").2 = true ∧
    assocGet "w" (stop_service ⟨some "boom"⟩ (stop_service ⟨none⟩
      { kvm := ⟨4, 2048, 1024⟩
        services := [("w", { freshService "w" "wireguard" [] with
          status := "running", pid := some 44, start_time := some 3 })] }
      "w").1 "w").1.services =
      some { ({ freshService "w" "wireguard" [] with
          status := "running", pid := some 44, start_time := some 3 } :
          Service) with
        status := "stopped", pid := none, start_time := none } :=
  c4_stop_idempotent ⟨none⟩ ⟨some "boom"⟩ _ "w" _ (by rfl) (Or.inr rfl)

/-- C3 counterexample: on an admission denial (memory-heavy type "xray",
available memory 100 MB < 512 MB) the claim says the service moves to
status Error; in the code the status is left untouched ("stopped" here) —
only `last_error` is written and no pid is recorded. -/
theorem c3_admission_status_counterexample :
    (start_service { cpuPercent := 10, now := 0, launch := .ok (some 5) }
      { kvm := ⟨4, 2048, 100⟩
        services := [("vpn", freshService "vpn" "xray" [])] } "vpn").2
      = false ∧
    (assocGet "vpn" (start_service
        { cpuPercent := 10, now := 0, launch := .ok (some 5) }
        { kvm := ⟨4, 2048, 100⟩
          services := [("vpn", freshService "vpn" "xray" [])] }
        "vpn").1.services).map Service.status = some "stopped" ∧
    ¬ ((assocGet "vpn" (start_service
        { cpuPercent := 10, now := 0, launch := .ok (some 5) }
        { kvm := ⟨4, 2048, 100⟩
          services := [("vpn", freshService "vpn" "xray" [])] }
        "vpn").1.services).map Service.status = some "error") ∧
    (assocGet "vpn" (start_service
        { cpuPercent := 10, now := 0, launch := .ok (some 5) }
        { kvm := ⟨4, 2048, 100⟩
          services := [("vpn", freshService "vpn" "xray" [])] }
        "vpn").1.services).map Service.pid = some none ∧
    (assocGet "vpn" (start_service
        { cpuPercent := 10, now := 0, launch := .ok (some 5) }
        { kvm := ⟨4, 2048, 100⟩
          services := [("vpn", freshService "vpn" "xray" [])] }
        "vpn").1.services).map Service.last_error =
      some (some "Insufficient resources") := by
  decide

/-- C3 (amended): when the stored resource snapshot reports available
memory below 512 MB, `start_service` on a memory-heavy service (xray,
adguardhome, hysteria2) refuses admission: it returns failure, records no
pid, leaves the status unchanged, and writes the diagnostic "Insufficient
resources" (distinct from the launch-failure diagnostic "Start failed");
for the CPU-heavy class (sing-box) high utilization never denies — the
start proceeds to the launch routine regardless of `cpuPercent`. -/
theorem c3_admission_denial (env : StartEnv) (m : Manager) (name : String)
    (svc : Service) (hget : assocGet name m.services = some svc)
    (hmem : svc.type = "xray" ∨ svc.type = "adguardhome" ∨
      svc.type = "hysteria2")
    (hlow : m.kvm.memory_available_mb < 512) :
    ((start_service env m name).2 = false ∧
     assocGet name (start_service env m name).1.services =
       some { svc with last_error := some "Insufficient resources" }) ∧
    (∀ (env2 : StartEnv) (m2 : Manager) (name2 : String) (svc2 : Service)
        (pid : Option Nat),
      assocGet name2 m2.services = some svc2 → svc2.type = "sing-box" →
      env2.launch = LaunchOutcome.ok pid →
      (start_service env2 m2 name2).2 = true) := by
  constructor
  · have hchk : check_resources m env.cpuPercent svc = false := by
      simp [check_resources, hmem, hlow]
    constructor
    · simp [start_service, hget, hchk]
    · simp [start_service, hget, hchk, setService, assocGet_set_self]
  · intro env2 m2 name2 svc2 pid h2 htype hlaunch
    have hchk : check_resources m2 env2.cpuPercent svc2 = true := by
      simp [check_resources, htype]
    simp [start_service, h2, hchk, hlaunch]

theorem c3_admission_denial_witness :
    (((start_service { cpuPercent := 95, now := 0, launch := .ok (some 5) }
        { kvm := ⟨4, 2048, 100⟩
          services := [("h", freshService "h" "hysteria2" [])] } "h").2
        = false ∧
      assocGet "h" (start_service
          { cpuPercent := 95, now := 0, launch := .ok (some 5) }
          { kvm := ⟨4, 2048, 100⟩
            services := [("h", freshService "h" "hysteria2" [])] }
          "h").1.services =
        some { freshService "h" "hysteria2" [] with
          last_error := some "Insufficient resources" }) ∧
     (∀ (env2 : StartEnv) (m2 : Manager) (name2 : String) (svc2 : Service)
        (pid : Option Nat),
       assocGet name2 m2.services = some svc2 → svc2.type = "sing-box" →
       env2.launch = LaunchOutcome.ok pid →
       (start_service env2 m2 name2).2 = true)) ∧
    (start_service { cpuPercent := 95, now := 0, launch := .ok (some 6) }
      { kvm := ⟨4, 2048, 100⟩
        services := [("sb", freshService "sb" "sing-box" [])] } "sb").2
      = true := by
  refine ⟨c3_admission_denial _ _ "h" _ rfl (Or.inr (Or.inr rfl)) (by decide), ?_⟩
  exact (c3_admission_denial
      { cpuPercent := 95, now := 0, launch := .ok (some 5) }
      { kvm := ⟨4, 2048, 100⟩
        services := [("h", freshService "h" "hysteria2" [])] } "h" _
      rfl (Or.inr (Or.inr rfl)) (by decide)).2
    { cpuPercent := 95, now := 0, launch := .ok (some 6) }
    { kvm := ⟨4, 2048, 100⟩
      services := [("sb", freshService "sb" "sing-box" [])] }
    "sb" _ (some 6) rfl rfl rfl

/-- C9 counterexample: `get_status` is not read-only — for a service with
a recorded pid whose process probe succeeds, it overwrites the stored
`memory_usage` / `cpu_usage` of the record (0 becomes 5 here), so the
registry after the call differs from the registry before it. -/
theorem c9_status_mutates_counterexample :
    (get_status { now := 0, proc := fun _ => some (5, 7) }
        { kvm := ⟨4, 2048, 1024⟩
          services := [("s", { freshService "s" "tor" [] with
            status := "running", pid := some 1 })] }).1 ≠
      ({ kvm := ⟨4, 2048, 1024⟩
         services := [("s", { freshService "s" "tor" [] with
           status := "running", pid := some 1 })] } : Manager) ∧
    (assocGet "s" (get_status { now := 0, proc := fun _ => some (5, 7) }
        { kvm := ⟨4, 2048, 1024⟩
          services := [("s", { freshService "s" "tor" [] with
            status := "running", pid := some 1 })] }).1.services).map
      Service.memory_usage = some 5 := by
  decide

/-- C9 (amended): `get_status` returns per service its type, state, pid,
memory/CPU usage, uptime seconds and restart count, derived from the
post-refresh registry; the only mutation it performs is overwriting
`memory_usage` / `cpu_usage` of records holding a pid whose process probe
succeeds — every other field of every record, the key set, and the
resource snapshot are unchanged. -/
theorem c9_status_frame (env : StatusEnv) (m : Manager) (name : String)
    (svc : Service) (hget : assocGet name m.services = some svc) :
    (get_status env m).1.kvm = m.kvm ∧
    (get_status env m).1.services.map Prod.fst =
      m.services.map Prod.fst ∧
    (∃ svc2, assocGet name (get_status env m).1.services = some svc2 ∧
      svc2.name = svc.name ∧ svc2.type = svc.type ∧
      svc2.config = svc.config ∧ svc2.status = svc.status ∧
      svc2.pid = svc.pid ∧ svc2.start_time = svc.start_time ∧
      svc2.restart_count = svc.restart_count ∧
      svc2.last_error = svc.last_error ∧ svc2.cgroup = svc.cgroup) ∧
    (get_status env m).2 =
      (get_status env m).1.services.map
        (fun p => (p.1, statusEntry env p.2)) := by
  refine ⟨rfl, ?_, ?_, rfl⟩
  · simp [get_status]
  · refine ⟨refreshService env svc, ?_, ?_, ?_, ?_, ?_, ?_, ?_, ?_, ?_, ?_⟩
    · show assocGet name
        (m.services.map (fun p => (p.1, refreshService env p.2))) = _
      rw [assocGet_map, hget]
      rfl
    all_goals
      cases hp : svc.pid with
      | none => simp [refreshService, hp]
      | some p =>
          cases hq : env.proc p <;> simp [refreshService, hp, hq]

theorem c9_status_frame_witness :
    (get_status { now := 9, proc := fun _ => none }
        { kvm := ⟨4, 2048, 1024⟩
          services := [("s", { freshService "s" "tor" [] with
            status := "running", pid := some 1 })] }).1.kvm =
      (⟨4, 2048, 1024⟩ : KvmResources) ∧
    (get_status { now := 9, proc := fun _ => none }
        { kvm := ⟨4, 2048, 1024⟩
          services := [("s", { freshService "s" "tor" [] with
            status := "running", pid := some 1 })] }).1.services.map
        Prod.fst =
      ([("s", { freshService "s" "tor" [] with
          status := "running", pid := some 1 })] :
        List (String × Service)).map Prod.fst ∧
    (∃ svc2, assocGet "s" (get_status { now := 9, proc := fun _ => none }
        { kvm := ⟨4, 2048, 1024⟩
          services := [("s", { freshService "s" "tor" [] with
            status := "running", pid := some 1 })] }).1.services =
        some svc2 ∧
      svc2.name = ({ freshService "s" "tor" [] with
        status := "running", pid := some 1 } : Service).name ∧
      svc2.type = ({ freshService "s" "tor" [] with
        status := "running", pid := some 1 } : Service).type ∧
      svc2.config = ({ freshService "s" "tor" [] with
        status := "running", pid := some 1 } : Service).config ∧
      svc2.status = ({ freshService "s" "tor" [] with
        status := "running", pid := some 1 } : Service).status ∧
      svc2.pid = ({ freshService "s" "tor" [] with
        status := "running", pid := some 1 } : Service).pid ∧
      svc2.start_time = ({ freshService "s" "tor" [] with
        status := "running", pid := some 1 } : Service).start_time ∧
      svc2.restart_count = ({ freshService "s" "tor" [] with
        status := "running", pid := some 1 } : Service).restart_count ∧
      svc2.last_error = ({ freshService "s" "tor" [] with
        status := "running", pid := some 1 } : Service).last_error ∧
      svc2.cgroup = ({ freshService "s" "tor" [] with
        status := "running", pid := some 1 } : Service).cgroup) ∧
    (get_status { now := 9, proc := fun _ => none }
        { kvm := ⟨4, 2048, 1024⟩
          services := [("s", { freshService "s" "tor" [] with
            status := "running", pid := some 1 })] }).2 =
      (get_status { now := 9, proc := fun _ => none }
          { kvm := ⟨4, 2048, 1024⟩
            services := [("s", { freshService "s" "tor" [] with
              status := "running", pid := some 1 })] }).1.services.map
        (fun p => (p.1, statusEntry { now := 9, proc := fun _ => none } p.2)) :=
  c9_status_frame { now := 9, proc := fun _ => none } _ "s" _ rfl

/-- C1 (code bug): the health monitor's automatic restart is NOT bounded
by 3, because the internally triggered `start_service` resets
`restart_count` to 0 on every successful start (line 174 of the source).
With a backend whose process is dead at every poll and whose launch
routine always reports success, four consecutive monitor passes perform
four automatic restarts and leave the service "running" with
`restart_count = 0` — the claimed transition to Error with "max restarts
exceeded" after 3 restarts never happens. -/
theorem c1_monitor_restart_unbounded :
    (monitorScans
      { alive := fun _ => false
        start := { cpuPercent := 10, now := 7, launch := .ok (some 101) } }
      4
      { kvm := ⟨4, 2048, 1024⟩
        services := [("vpn", { freshService "vpn" "tor" [] with
          status := "running", pid := some 100 })] }).2 = 4 ∧
    (assocGet "vpn" (monitorScans
      { alive := fun _ => false
        start := { cpuPercent := 10, now := 7, launch := .ok (some 101) } }
      4
      { kvm := ⟨4, 2048, 1024⟩
        services := [("vpn", { freshService "vpn" "tor" [] with
          status := "running", pid := some 100 })] }).1.services).map
      Service.status = some "running" ∧
    (assocGet "vpn" (monitorScans
      { alive := fun _ => false
        start := { cpuPercent := 10, now := 7, launch := .ok (some 101) } }
      4
      { kvm := ⟨4, 2048, 1024⟩
        services := [("vpn", { freshService "vpn" "tor" [] with
          status := "running", pid := some 100 })] }).1.services).map
      Service.restart_count = some 0 := by
  decide

/-- C5: protocol detection is a pure function of the input (its type in
this embedding), and URI scheme prefixes map to their documented tags with
priority over the structural heuristics: ss therefore shadowsocks, trojan,
vless/vmess therefore xray, wg therefore wireguard, hysteria/hy2 therefore
hysteria2; an input exhibiting no recognized marker yields unknown. -/
theorem c5_detect_scheme_map (L : Libs) (rest : List Char) :
    detect_protocol L ("ss://".data ++ rest) = "shadowsocks".data ∧
    detect_protocol L ("trojan://".data ++ rest) = "trojan".data ∧
    detect_protocol L ("vless://".data ++ rest) = "xray".data ∧
    detect_protocol L ("vmess://".data ++ rest) = "xray".data ∧
    detect_protocol L ("wg://".data ++ rest) = "wireguard".data ∧
    detect_protocol L ("hysteria://".data ++ rest) = "hysteria2".data ∧
    detect_protocol L ("hy2://".data ++ rest) = "hysteria2".data ∧
    (∀ d,
      ¬ ("ss://".data <+: pyStrip d) →
      ¬ ("trojan://".data <+: pyStrip d) →
      ¬ ("vless://".data <+: pyStrip d) →
      ¬ ("vmess://".data <+: pyStrip d) →
      ¬ ("wg://".data <+: pyStrip d) →
      ¬ ("wireguard://".data <+: pyStrip d) →
      ¬ ("amnezia://".data <+: pyStrip d) →
      ¬ ("hysteria://".data <+: pyStrip d) →
      ¬ ("hy2://".data <+: pyStrip d) →
      (hasInfix "[Interface]".data (pyStrip d) = false ∨
        hasInfix "[Peer]".data (pyStrip d) = false) →
      (hasInfix "client".data (pyLower (pyStrip d)) = false ∨
        hasInfix "dev tun".data (pyLower (pyStrip d)) = false) →
      headIs lbrace (pyStrip d) = false →
      hasInfix "SOCKSPort".data (pyStrip d) = false →
      hasInfix "torrc".data (pyLower (pyStrip d)) = false →
      detect_protocol L d = "unknown".data) ∧
    (∀ d, detect_protocol L d = detect_protocol L d) := by
  refine ⟨?_, ?_, ?_, ?_, ?_, ?_, ?_, ?_, fun _ => rfl⟩
  · obtain ⟨q, hq⟩ :=
      pyStrip_append_prefix ("ss://".data) rest (by decide) (by decide)
        (by decide)
    simp at hq
    simp [detect_protocol, hq, List.prefix_append]
  · obtain ⟨q, hq⟩ :=
      pyStrip_append_prefix ("trojan://".data) rest (by decide) (by decide)
        (by decide)
    have h1 := not_prefix_append ("ss://".data) ("trojan://".data) q
      (by decide) (by decide)
    simp at hq
    simp [detect_protocol, hq, h1, List.prefix_append]
  · obtain ⟨q, hq⟩ :=
      pyStrip_append_prefix ("vless://".data) rest (by decide) (by decide)
        (by decide)
    have h1 := not_prefix_append ("ss://".data) ("vless://".data) q
      (by decide) (by decide)
    have h2 := not_prefix_append ("trojan://".data) ("vless://".data) q
      (by decide) (by decide)
    simp at hq
    simp [detect_protocol, hq, h1, h2, List.prefix_append]
  · obtain ⟨q, hq⟩ :=
      pyStrip_append_prefix ("vmess://".data) rest (by decide) (by decide)
        (by decide)
    have h1 := not_prefix_append ("ss://".data) ("vmess://".data) q
      (by decide) (by decide)
    have h2 := not_prefix_append ("trojan://".data) ("vmess://".data) q
      (by decide) (by decide)
    have h3 := not_prefix_append ("vless://".data) ("vmess://".data) q
      (by decide) (by decide)
    simp at hq
    simp [detect_protocol, hq, h1, h2, h3, List.prefix_append]
  · obtain ⟨q, hq⟩ :=
      pyStrip_append_prefix ("wg://".data) rest (by decide) (by decide)
        (by decide)
    have h1 := not_prefix_append ("ss://".data) ("wg://".data) q
      (by decide) (by decide)
    have h2 := not_prefix_append ("trojan://".data) ("wg://".data) q
      (by decide) (by decide)
    have h3 := not_prefix_append ("vless://".data) ("wg://".data) q
      (by decide) (by decide)
    have h4 := not_prefix_append ("vmess://".data) ("wg://".data) q
      (by decide) (by decide)
    simp at hq
    simp [detect_protocol, hq, h1, h2, h3, h4, List.prefix_append]
  · obtain ⟨q, hq⟩ :=
      pyStrip_append_prefix ("hysteria://".data) rest (by decide)
        (by decide) (by decide)
    have h1 := not_prefix_append ("ss://".data) ("hysteria://".data) q
      (by decide) (by decide)
    have h2 := not_prefix_append ("trojan://".data) ("hysteria://".data) q
      (by decide) (by decide)
    have h3 := not_prefix_append ("vless://".data) ("hysteria://".data) q
      (by decide) (by decide)
    have h4 := not_prefix_append ("vmess://".data) ("hysteria://".data) q
      (by decide) (by decide)
    have h5 := not_prefix_append ("wg://".data) ("hysteria://".data) q
      (by decide) (by decide)
    have h6 := not_prefix_append ("wireguard://".data) ("hysteria://".data)
      q (by decide) (by decide)
    have h7 := not_prefix_append ("amnezia://".data) ("hysteria://".data)
      q (by decide) (by decide)
    simp at hq
    simp [detect_protocol, hq, h1, h2, h3, h4, h5, h6, h7,
      List.prefix_append]
  · obtain ⟨q, hq⟩ :=
      pyStrip_append_prefix ("hy2://".data) rest (by decide) (by decide)
        (by decide)
    have h1 := not_prefix_append ("ss://".data) ("hy2://".data) q
      (by decide) (by decide)
    have h2 := not_prefix_append ("trojan://".data) ("hy2://".data) q
      (by decide) (by decide)
    have h3 := not_prefix_append ("vless://".data) ("hy2://".data) q
      (by decide) (by decide)
    have h4 := not_prefix_append ("vmess://".data) ("hy2://".data) q
      (by decide) (by decide)
    have h5 := not_prefix_append ("wg://".data) ("hy2://".data) q
      (by decide) (by decide)
    have h6 := not_prefix_append ("wireguard://".data) ("hy2://".data) q
      (by decide) (by decide)
    have h7 := not_prefix_append ("amnezia://".data) ("hy2://".data) q
      (by decide) (by decide)
    have h8 := not_prefix_append ("hysteria://".data) ("hy2://".data) q
      (by decide) (by decide)
    simp at hq
    simp [detect_protocol, hq, h1, h2, h3, h4, h5, h6, h7, h8,
      List.prefix_append]
  · intro d h1 h2 h3 h4 h5 h6 h7 h8 h9 h10 h11 h12 h13 h14
    rcases h10 with h10 | h10 <;> rcases h11 with h11 | h11 <;>
      simp [detect_protocol, h1, h2, h3, h4, h5, h6, h7, h8, h9, h10, h11,
        h12, h13, h14]

theorem c5_detect_scheme_map_witness :
    detect_protocol stubLibs ("ss://".data ++ "abc".data) =
      "shadowsocks".data ∧
    detect_protocol stubLibs "hello".data = "unknown".data :=
  ⟨(c5_detect_scheme_map stubLibs "abc".data).1,
   (c5_detect_scheme_map stubLibs "abc".data).2.2.2.2.2.2.2.1 "hello".data
     (by decide) (by decide) (by decide) (by decide) (by decide)
     (by decide) (by decide) (by decide) (by decide)
     (Or.inl (by decide)) (Or.inl (by decide)) (by decide) (by decide)
     (by decide)⟩

/-- C6 counterexample: the INI input below contains the AmneziaWG-only
key S1 (and both an Interface and a Peer section); the WireGuard decoder
records type amneziawg for it, but auto-detection — which only looks for
the substrings "Jc" / "Jmin" — classifies it wireguard, contradicting the
claim that the classification is amneziawg in both places. -/
theorem c6_detect_counterexample :
    (parse_wireguard stubLibs
        "[Interface]\nS1 = 120\n[Peer]\nPublicKey = A".data).type =
      "amneziawg".data ∧
    (assocGet "s1".data (parse_wireguard stubLibs
        "[Interface]\nS1 = 120\n[Peer]\nPublicKey = A".data).interface).isSome
      = true ∧
    detect_protocol stubLibs
      "[Interface]\nS1 = 120\n[Peer]\nPublicKey = A".data =
      "wireguard".data ∧
    ¬ (detect_protocol stubLibs
        "[Interface]\nS1 = 120\n[Peer]\nPublicKey = A".data =
       "amneziawg".data) := by
  decide

/-- C6 (amended): the WireGuard decoder upgrades the recorded type to
amneziawg whenever any of the nine AmneziaWG-only keys (jc, jmin, jmax,
s1, s2, h1-h4) ends up in the parsed interface section; auto-detection of
a WireGuard-style input, by contrast, upgrades to amneziawg exactly when
the raw text contains the substring "Jc" or "Jmin" (case-sensitive), and
classifies it wireguard otherwise. -/
theorem c6_amnezia_classification :
    (∀ (L : Libs) (data key : List Char),
      (("wg://".data).isPrefixOf data ||
        ("wireguard://".data).isPrefixOf data) = false →
      key ∈ awgParams →
      (assocGet key (parse_wireguard L data).interface).isSome = true →
      (parse_wireguard L data).type = "amneziawg".data) ∧
    (∀ (L : Libs) (d : List Char),
      ¬ ("ss://".data <+: pyStrip d) →
      ¬ ("trojan://".data <+: pyStrip d) →
      ¬ ("vless://".data <+: pyStrip d) →
      ¬ ("vmess://".data <+: pyStrip d) →
      ¬ ("wg://".data <+: pyStrip d) →
      ¬ ("wireguard://".data <+: pyStrip d) →
      ¬ ("amnezia://".data <+: pyStrip d) →
      ¬ ("hysteria://".data <+: pyStrip d) →
      ¬ ("hy2://".data <+: pyStrip d) →
      hasInfix "[Interface]".data (pyStrip d) = true →
      hasInfix "[Peer]".data (pyStrip d) = true →
      (hasInfix "Jc".data (pyStrip d) = true ∨
        hasInfix "Jmin".data (pyStrip d) = true) →
      detect_protocol L d = "amneziawg".data) := by
  constructor
  · intro L data key hurl hkey hsome
    simp only [parse_wireguard, hurl, Bool.false_eq_true,
      if_false] at hsome ⊢
    simp only [parse_wireguard_ini] at hsome ⊢
    have hany : awgParams.any
        (fun p => (assocGet p
          ((pySplitAll '\n' data).foldl wgLine ⟨none, [], [], []⟩).iface).isSome)
        = true :=
      List.any_eq_true.mpr ⟨key, hkey, by simpa using hsome⟩
    simp [hany]
  · intro L d h1 h2 h3 h4 h5 h6 h7 h8 h9 h10 h11 h12
    rcases h12 with h12 | h12 <;>
      simp [detect_protocol, h1, h2, h3, h4, h5, h6, h7, h8, h9, h10, h11,
        h12]

theorem c6_amnezia_classification_witness :
    (parse_wireguard stubLibs
        "[Interface]\nJc = 4\n[Peer]\nPublicKey = A".data).type =
      "amneziawg".data ∧
    detect_protocol stubLibs
      "[Interface]\nJc = 4\n[Peer]\nPublicKey = A".data =
      "amneziawg".data :=
  ⟨c6_amnezia_classification.1 stubLibs
      "[Interface]\nJc = 4\n[Peer]\nPublicKey = A".data "jc".data
      (by decide) (by decide) (by decide),
   c6_amnezia_classification.2 stubLibs
     "[Interface]\nJc = 4\n[Peer]\nPublicKey = A".data
     (by decide) (by decide) (by decide) (by decide) (by decide)
     (by decide) (by decide) (by decide) (by decide) (by decide)
     (by decide) (Or.inl (by decide))⟩

/-- C7: a WireGuard-style INI input made of key=value lines before any
section header, one [Interface] section and two nonempty [Peer] blocks
decodes to exactly 2 peer entries in source order (the final block is
flushed after end of input); the leading sectionless lines are silently
dropped (the interface dict collects only the Interface section, and the
decoder returns normally). -/
theorem c7_wireguard_two_peers
    (pre ifc p1 p2 : List (List Char × List Char))
    (hpre : ∀ kv ∈ pre, GoodKV kv) (hifc : ∀ kv ∈ ifc, GoodKV kv)
    (hp1 : ∀ kv ∈ p1, GoodKV kv) (hp2 : ∀ kv ∈ p2, GoodKV kv)
    (hp1ne : p1 ≠ []) (hp2ne : p2 ≠ []) :
    (parse_wireguard_ini (joinNl (iniLines pre ++
        ("[Interface]".data :: (iniLines ifc ++
        ("[Peer]".data :: (iniLines p1 ++
        ("[Peer]".data :: iniLines p2)))))))).peers =
      [iniDict p1 [], iniDict p2 []] ∧
    (parse_wireguard_ini (joinNl (iniLines pre ++
        ("[Interface]".data :: (iniLines ifc ++
        ("[Peer]".data :: (iniLines p1 ++
        ("[Peer]".data :: iniLines p2)))))))).interface = iniDict ifc [] ∧
    (parse_wireguard_ini (joinNl (iniLines pre ++
        ("[Interface]".data :: (iniLines ifc ++
        ("[Peer]".data :: (iniLines p1 ++
        ("[Peer]".data :: iniLines p2)))))))).peers.length = 2 := by
  have hnl : ∀ l ∈ (iniLines pre ++
        ("[Interface]".data :: (iniLines ifc ++
        ("[Peer]".data :: (iniLines p1 ++
        ("[Peer]".data :: iniLines p2)))))), '\n' ∉ l := by
    intro l hl
    rcases List.mem_append.mp hl with h | h
    · simp only [iniLines] at h
      obtain ⟨kv, hkv, rfl⟩ := List.mem_map.mp h
      exact kvLine_no_newline kv (hpre kv hkv)
    rcases List.mem_cons.mp h with rfl | h
    · decide
    rcases List.mem_append.mp h with h | h
    · simp only [iniLines] at h
      obtain ⟨kv, hkv, rfl⟩ := List.mem_map.mp h
      exact kvLine_no_newline kv (hifc kv hkv)
    rcases List.mem_cons.mp h with rfl | h
    · decide
    rcases List.mem_append.mp h with h | h
    · simp only [iniLines] at h
      obtain ⟨kv, hkv, rfl⟩ := List.mem_map.mp h
      exact kvLine_no_newline kv (hp1 kv hkv)
    rcases List.mem_cons.mp h with rfl | h
    · decide
    simp only [iniLines] at h
    obtain ⟨kv, hkv, rfl⟩ := List.mem_map.mp h
    exact kvLine_no_newline kv (hp2 kv hkv)
  have hne : (iniLines pre ++
        ("[Interface]".data :: (iniLines ifc ++
        ("[Peer]".data :: (iniLines p1 ++
        ("[Peer]".data :: iniLines p2)))))) ≠ [] := by
    intro hcontra
    rcases List.append_eq_nil.mp hcontra with ⟨-, h2⟩
    simp at h2
  have hsplit := pySplitAll_joinNl _ hnl hne
  have hpe1 : (iniDict p1 []).isEmpty = false := by
    cases hx : iniDict p1 [] with
    | nil => exact absurd hx (iniDict_ne_nil p1 [] hp1ne)
    | cons y ys => rfl
  have hpe2 : (iniDict p2 []).isEmpty = false := by
    cases hx : iniDict p2 [] with
    | nil => exact absurd hx (iniDict_ne_nil p2 [] hp2ne)
    | cons y ys => rfl
  have hfold : List.foldl wgLine ⟨none, [], [], []⟩ (iniLines pre ++
        ("[Interface]".data :: (iniLines ifc ++
        ("[Peer]".data :: (iniLines p1 ++
        ("[Peer]".data :: iniLines p2)))))) =
      ⟨some "Peer".data, iniDict p2 [], iniDict ifc [], [iniDict p1 []]⟩ := by
    rw [List.foldl_append,
      foldl_iniLines_dropped pre ⟨none, [], [], []⟩ hpre rfl,
      List.foldl_cons, wgLine_interface_header]
    show List.foldl wgLine ⟨some "Interface".data, [], [], []⟩
      (iniLines ifc ++
        ("[Peer]".data :: (iniLines p1 ++
        ("[Peer]".data :: iniLines p2)))) = _
    rw [List.foldl_append,
      foldl_iniLines_iface ifc ⟨some "Interface".data, [], [], []⟩ hifc rfl]
    show List.foldl wgLine ⟨some "Interface".data, [], iniDict ifc [], []⟩
      ("[Peer]".data :: (iniLines p1 ++
        ("[Peer]".data :: iniLines p2))) = _
    rw [List.foldl_cons, wgLine_peer_header_empty
      ⟨some "Interface".data, [], iniDict ifc [], []⟩ rfl]
    show List.foldl wgLine ⟨some "Peer".data, [], iniDict ifc [], []⟩
      (iniLines p1 ++ ("[Peer]".data :: iniLines p2)) = _
    rw [List.foldl_append,
      foldl_iniLines_peer p1 ⟨some "Peer".data, [], iniDict ifc [], []⟩
        hp1 rfl]
    show List.foldl wgLine
      ⟨some "Peer".data, iniDict p1 [], iniDict ifc [], []⟩
      ("[Peer]".data :: iniLines p2) = _
    rw [List.foldl_cons, wgLine_peer_header_flush
      ⟨some "Peer".data, iniDict p1 [], iniDict ifc [], []⟩ hpe1]
    show List.foldl wgLine
      ⟨some "Peer".data, [], iniDict ifc [], [iniDict p1 []]⟩
      (iniLines p2) = _
    rw [foldl_iniLines_peer p2
      ⟨some "Peer".data, [], iniDict ifc [], [iniDict p1 []]⟩ hp2 rfl]
  have hpeers : (parse_wireguard_ini (joinNl (iniLines pre ++
        ("[Interface]".data :: (iniLines ifc ++
        ("[Peer]".data :: (iniLines p1 ++
        ("[Peer]".data :: iniLines p2)))))))).peers =
      [iniDict p1 [], iniDict p2 []] := by
    simp only [parse_wireguard_ini, hsplit, hfold]
    simp only [hpe2, Bool.false_eq_true, if_false]
    rfl
  have hiface : (parse_wireguard_ini (joinNl (iniLines pre ++
        ("[Interface]".data :: (iniLines ifc ++
        ("[Peer]".data :: (iniLines p1 ++
        ("[Peer]".data :: iniLines p2)))))))).interface =
      iniDict ifc [] := by
    simp only [parse_wireguard_ini, hsplit, hfold]
  exact ⟨hpeers, hiface, by rw [hpeers]; rfl⟩

theorem c7_wireguard_two_peers_witness :
    (parse_wireguard_ini (joinNl (iniLines [("junk".data, "1".data)] ++
        ("[Interface]".data :: (iniLines [("PrivateKey".data, "K".data)] ++
        ("[Peer]".data :: (iniLines [("PublicKey".data, "A".data)] ++
        ("[Peer]".data :: iniLines [("PublicKey".data, "B".data)])))))))).peers =
      [iniDict [("PublicKey".data, "A".data)] [],
       iniDict [("PublicKey".data, "B".data)] []] ∧
    (parse_wireguard_ini (joinNl (iniLines [("junk".data, "1".data)] ++
        ("[Interface]".data :: (iniLines [("PrivateKey".data, "K".data)] ++
        ("[Peer]".data :: (iniLines [("PublicKey".data, "A".data)] ++
        ("[Peer]".data :: iniLines [("PublicKey".data, "B".data)])))))))).interface =
      iniDict [("PrivateKey".data, "K".data)] [] ∧
    (parse_wireguard_ini (joinNl (iniLines [("junk".data, "1".data)] ++
        ("[Interface]".data :: (iniLines [("PrivateKey".data, "K".data)] ++
        ("[Peer]".data :: (iniLines [("PublicKey".data, "A".data)] ++
        ("[Peer]".data :: iniLines [("PublicKey".data, "B".data)])))))))).peers.length = 2 :=
  c7_wireguard_two_peers
    [("junk".data, "1".data)] [("PrivateKey".data, "K".data)]
    [("PublicKey".data, "A".data)] [("PublicKey".data, "B".data)]
    (by intro kv hm
        obtain rfl := List.mem_singleton.mp hm
        exact ⟨by decide, by decide, by decide, by decide, by decide,
          by decide, by decide⟩)
    (by intro kv hm
        obtain rfl := List.mem_singleton.mp hm
        exact ⟨by decide, by decide, by decide, by decide, by decide,
          by decide, by decide⟩)
    (by intro kv hm
        obtain rfl := List.mem_singleton.mp hm
        exact ⟨by decide, by decide, by decide, by decide, by decide,
          by decide, by decide⟩)
    (by intro kv hm
        obtain rfl := List.mem_singleton.mp hm
        exact ⟨by decide, by decide, by decide, by decide, by decide,
          by decide, by decide⟩)
    (by decide) (by decide)

/-- C8: Shadowsocks parsing round-trips. For every method, password, host,
port and display name (with the separator characters kept out of the
fields they would ambiguate), parsing
`ss://<base64(method:password)>@host:port#name` yields the decoded method
and password, the host, the integer port and the percent-decoded name;
and an authority segment already in plain `method:password` form (one
that base64 cannot decode) is accepted by the fallback path with the same
result. -/
theorem c8_shadowsocks_roundtrip (L : Libs) (m p h nm : List Char)
    (nport : Nat) (hmc : ':' ∉ m) (hhc : ':' ∉ h) (hhh : '#' ∉ h)
    (hhq : '?' ∉ h) :
    ((∀ c ∈ m, c.toNat < 128) → (∀ c ∈ p, c.toNat < 128) →
      parse_shadowsocks L ("ss://".data ++
        ((b64encode (utf8Encode (m ++ ':' :: p)) ++
          '@' :: (h ++ ':' :: decimalString nport)) ++ '#' :: nm)) =
        { method := some m
          password := some p
          server := some h
          port := some (nport : Int)
          plugin := none
          name := some (pyUnquote nm)
          error := none }) ∧
    (b64decode (m ++ ':' :: p) = none → '#' ∉ m → '?' ∉ m → '@' ∉ m →
      '#' ∉ p → '?' ∉ p → '@' ∉ p →
      parse_shadowsocks L ("ss://".data ++
        (((m ++ ':' :: p) ++
          '@' :: (h ++ ':' :: decimalString nport)) ++ '#' :: nm)) =
        { method := some m
          password := some p
          server := some h
          port := some (nport : Int)
          plugin := none
          name := some (pyUnquote nm)
          error := none }) := by
  have hdspec := decimalString_no_special nport
  constructor
  · intro hma hpa
    have hascii : ∀ c ∈ m ++ ':' :: p, c.toNat < 128 := by
      intro c hc
      rcases List.mem_append.mp hc with hc | hc
      · exact hma c hc
      · rcases List.mem_cons.mp hc with rfl | hc
        · decide
        · exact hpa c hc
    have hbytes := utf8Encode_ascii_bytes _ hascii
    have hbspec := b64encode_no_special _ hbytes
    have hBat : '@' ∉ b64encode (utf8Encode (m ++ ':' :: p)) :=
      fun hm2 => (hbspec _ hm2).2.2.2 rfl
    have hAhash : '#' ∉ b64encode (utf8Encode (m ++ ':' :: p)) ++
        '@' :: (h ++ ':' :: decimalString nport) := by
      intro hm2
      rcases List.mem_append.mp hm2 with hm2 | hm2
      · exact (hbspec _ hm2).2.1 rfl
      · rcases List.mem_cons.mp hm2 with heq | hm2
        · exact absurd heq (by decide)
        · rcases List.mem_append.mp hm2 with hm2 | hm2
          · exact hhh hm2
          · rcases List.mem_cons.mp hm2 with heq | hm2
            · exact absurd heq (by decide)
            · exact (hdspec _ hm2).2.1 rfl
    have hAq : '?' ∉ b64encode (utf8Encode (m ++ ':' :: p)) ++
        '@' :: (h ++ ':' :: decimalString nport) := by
      intro hm2
      rcases List.mem_append.mp hm2 with hm2 | hm2
      · exact (hbspec _ hm2).2.2.1 rfl
      · rcases List.mem_cons.mp hm2 with heq | hm2
        · exact absurd heq (by decide)
        · rcases List.mem_append.mp hm2 with hm2 | hm2
          · exact hhq hm2
          · rcases List.mem_cons.mp hm2 with heq | hm2
            · exact absurd heq (by decide)
            · exact (hdspec _ hm2).2.2.1 rfl
    have h1 := pySplitFirst_append '#' _ nm hAhash
    have h2 := pySplitFirst_none '?' _ hAq
    have h3 := pySplitFirst_append '@' _
      (h ++ ':' :: decimalString nport) hBat
    have h4 := b64decode_encode _ hbytes
    have h5 := utf8Decode_encode_ascii _ hascii
    have h6 := pySplitFirst_append ':' m p hmc
    have h7 := pySplitFirst_append ':' h (decimalString nport) hhc
    have h8 := pyInt_decimal nport
    have hd1 : (if ("ss://".data).isPrefixOf ("ss://".data ++
          ((b64encode (utf8Encode (m ++ ':' :: p)) ++
            '@' :: (h ++ ':' :: decimalString nport)) ++ '#' :: nm)) then
        ("ss://".data ++
          ((b64encode (utf8Encode (m ++ ':' :: p)) ++
            '@' :: (h ++ ':' :: decimalString nport)) ++
              '#' :: nm)).drop 5
      else ("ss://".data ++
        ((b64encode (utf8Encode (m ++ ':' :: p)) ++
          '@' :: (h ++ ':' :: decimalString nport)) ++ '#' :: nm))) =
        (b64encode (utf8Encode (m ++ ':' :: p)) ++
          '@' :: (h ++ ':' :: decimalString nport)) ++ '#' :: nm := by
      rw [isPrefixOf_append_self]
      rw [if_pos rfl]
      rfl
    simp only [parse_shadowsocks, hd1, h1, h2, h3, h4, h5, h6, h7, h8]
    rfl
  · intro hfb hmh hmq hmat hph hpq hpat
    have hAhash : '#' ∉ (m ++ ':' :: p) ++
        '@' :: (h ++ ':' :: decimalString nport) := by
      intro hm2
      rcases List.mem_append.mp hm2 with hm2 | hm2
      · rcases List.mem_append.mp hm2 with hm2 | hm2
        · exact hmh hm2
        · rcases List.mem_cons.mp hm2 with heq | hm2
          · exact absurd heq (by decide)
          · exact hph hm2
      · rcases List.mem_cons.mp hm2 with heq | hm2
        · exact absurd heq (by decide)
        · rcases List.mem_append.mp hm2 with hm2 | hm2
          · exact hhh hm2
          · rcases List.mem_cons.mp hm2 with heq | hm2
            · exact absurd heq (by decide)
            · exact (hdspec _ hm2).2.1 rfl
    have hAq : '?' ∉ (m ++ ':' :: p) ++
        '@' :: (h ++ ':' :: decimalString nport) := by
      intro hm2
      rcases List.mem_append.mp hm2 with hm2 | hm2
      · rcases List.mem_append.mp hm2 with hm2 | hm2
        · exact hmq hm2
        · rcases List.mem_cons.mp hm2 with heq | hm2
          · exact absurd heq (by decide)
          · exact hpq hm2
      · rcases List.mem_cons.mp hm2 with heq | hm2
        · exact absurd heq (by decide)
        · rcases List.mem_append.mp hm2 with hm2 | hm2
          · exact hhq hm2
          · rcases List.mem_cons.mp hm2 with heq | hm2
            · exact absurd heq (by decide)
            · exact (hdspec _ hm2).2.2.1 rfl
    have hBat : '@' ∉ m ++ ':' :: p := by
      intro hm2
      rcases List.mem_append.mp hm2 with hm2 | hm2
      · exact hmat hm2
      · rcases List.mem_cons.mp hm2 with heq | hm2
        · exact absurd heq (by decide)
        · exact hpat hm2
    have h1 := pySplitFirst_append '#' _ nm hAhash
    have h2 := pySplitFirst_none '?' _ hAq
    have h3 := pySplitFirst_append '@' (m ++ ':' :: p)
      (h ++ ':' :: decimalString nport) hBat
    have h6 := pySplitFirst_append ':' m p hmc
    have h7 := pySplitFirst_append ':' h (decimalString nport) hhc
    have h8 := pyInt_decimal nport
    have hd1 : (if ("ss://".data).isPrefixOf ("ss://".data ++
          (((m ++ ':' :: p) ++
            '@' :: (h ++ ':' :: decimalString nport)) ++ '#' :: nm)) then
        ("ss://".data ++
          (((m ++ ':' :: p) ++
            '@' :: (h ++ ':' :: decimalString nport)) ++
              '#' :: nm)).drop 5
      else ("ss://".data ++
        (((m ++ ':' :: p) ++
          '@' :: (h ++ ':' :: decimalString nport)) ++ '#' :: nm))) =
        ((m ++ ':' :: p) ++
          '@' :: (h ++ ':' :: decimalString nport)) ++ '#' :: nm := by
      rw [isPrefixOf_append_self]
      rw [if_pos rfl]
      rfl
    simp only [parse_shadowsocks, hd1, h1, h2, h3, hfb, h6, h7, h8]
    rfl

theorem c8_shadowsocks_roundtrip_witness :
    parse_shadowsocks stubLibs ("ss://".data ++
      ((b64encode (utf8Encode ("chacha20".data ++ ':' :: "pw".data)) ++
        '@' :: ("ex.com".data ++ ':' :: decimalString 5)) ++
          '#' :: "My%20SS".data)) =
      { method := some "chacha20".data
        password := some "pw".data
        server := some "ex.com".data
        port := some (5 : Int)
        plugin := none
        name := some (pyUnquote "My%20SS".data)
        error := none } :=
  (c8_shadowsocks_roundtrip stubLibs "chacha20".data "pw".data
    "ex.com".data "My%20SS".data 5 (by decide) (by decide) (by decide)
    (by decide)).1 (by decide) (by decide)

/-- C2 counterexample: a vmess URL whose base64 body cannot be decoded is
malformed/undecodable input, yet `parse` reports it with `parsed = true`
and an empty `errors` list, because `_parse_vmess_url` catches its own
exception and returns an `{"error": ...}` dict that `parse` merges as a
success. -/
theorem c2_vmess_recovery_counterexample :
    (parse stubLibs "xray".data "vmess://A".data).parsed = true ∧
    (parse stubLibs "xray".data "vmess://A".data).errors = [] ∧
    (parse stubLibs "xray".data "vmess://A".data).payload =
      some (.vmessErr "invalid base64-encoded string") :=
  ⟨rfl, rfl, rfl⟩

/-- C2 (amended): `parse` is total (every exception a decoder lets escape
is caught and recorded, so the caller never sees one), and any result
whose `errors` list is non-empty is reported with `parsed = false`;
equivalently a result with `parsed = true` carries no errors. The
original claim fails for decoders that recover internally: a vmess body
with undecodable base64 yields `parsed = true` with the diagnostic tucked
into the payload, not `parsed = false`. -/
theorem c2_parse_error_reporting (L : Libs) (protocol0 data : List Char)
    (hp : (parse L protocol0 data).parsed = true) :
    (parse L protocol0 data).errors = [] := by
  revert hp
  simp only [parse]
  split <;> simp

theorem c2_parse_error_reporting_witness :
    (parse stubLibs "wireguard".data []).errors = [] :=
  c2_parse_error_reporting stubLibs "wireguard".data [] rfl

end Sentinel
